import Mathlib

/-!
Shallow embedding of `tasks.py` (robot-order workflow for RobotSpareBin
Industries).  Every browser / library side effect of the script is modelled as
an event; an environment decides, per event occurrence, whether the underlying
action succeeds (returning a string value, e.g. the inner HTML of an element)
or raises (returning the exception's message).  The workflow is embedded as
explicit state passing: a `World` carries the per-event occurrence counters
and the single shared `Config` object (Python passes one mutable dataclass
instance around; keeping it in the state lets us prove it is never written).
Path objects are modelled as strings joined with "/"; resolution of relative
paths against the process working directory (`Path.absolute`) is elided, so
paths are relative to the working directory throughout.
-/

namespace RobotOrders

deriving instance DecidableEq for Except

/-- One observable side effect issued by the script: a page interaction
(`click`, `waitSel`, `selectOption`, `fillField`, `innerHtml`, `screenshot`,
`goto`) or a library call (`htmlToPdf`, `watermarkPdf`, `httpDownload`,
`archiveZip`).  Click events record the optional per-call timeout; selector
waits record their mandatory timeout in milliseconds. -/
inductive BEvent where
  | click (selector : String) (timeout : Option Nat)
  | waitSel (selector : String) (timeout : Nat)
  | selectOption (selector value : String)
  | fillField (selector value : String)
  | innerHtml (selector : String)
  | screenshot (path : String)
  | htmlToPdf (html path : String)
  | watermarkPdf (image source output : String)
  | goto (url : String)
  | httpDownload (url file : String) (overwrite : Bool)
  | archiveZip (folder zipFile : String)
  deriving DecidableEq

/-- How many times each event has been issued so far. -/
def Counts : Type := BEvent → Nat

/-- A CSV row as produced by `Tables().read_table_from_csv`: an association
list from column name to cell value (dictionary access on a row raises
`KeyError` when the column is absent, modelled through `Option`). -/
abbrev Row : Type := List (String × String)

/-- The external world: `act ev i` is the outcome of the `i`-th issuance of
event `ev` (an exception message, or a returned string value — the value is
only meaningful for value-returning actions such as `innerHtml`); `csv f` is
the parsed content of local CSV file `f` when it is read. -/
structure Env where
  act : BEvent → Nat → Except String String
  csv : String → Except String (List Row)

/-- `Order` dataclass (tasks.py lines 31-37).  The source annotates
`order_number : int`; the value only ever flows from the CSV cell into file
names, so it is kept in its string form here. -/
structure Order where
  order_number : String
  head : String
  body : String
  legs : String
  address : String
  deriving DecidableEq

/-- `Config` dataclass (tasks.py lines 39-47); `output_dir` is a `Path`. -/
structure Config where
  robot_order_website_url : String := "https://robotsparebinindustries.com/#robot-order"
  orders_file_url : String := "https://robotsparebinindustries.com/orders.csv"
  orders_file_name : String := "orders.csv"
  output_dir : String := "output"
  deriving DecidableEq

/-- Mutable run state: event counters plus the one shared `Config` object. -/
structure World where
  counts : Counts
  config : Config

/-- Result of running a piece of the script: the events it issued in order,
the final state, and either a returned value or the propagating exception. -/
structure Outcome (α : Type) where
  trace : List BEvent
  world : World
  result : Except String α

/-- Bump the occurrence counter of one event. -/
def bump (c : Counts) (ev : BEvent) : Counts :=
  fun e => if e = ev then c e + 1 else c e

/-- Issue one unit-valued effect: record the event, consume its occurrence,
succeed or raise as the environment dictates. -/
def primU (env : Env) (ev : BEvent) (w : World) : Outcome Unit :=
  ⟨[ev], ⟨bump w.counts ev, w.config⟩, (env.act ev (w.counts ev)).map (fun _ => ())⟩

/-- Issue one string-valued effect (e.g. `inner_html`). -/
def primS (env : Env) (ev : BEvent) (w : World) : Outcome String :=
  ⟨[ev], ⟨bump w.counts ev, w.config⟩, env.act ev (w.counts ev)⟩

/-- The empty computation. -/
def skipO (w : World) : Outcome Unit := ⟨[], w, .ok ()⟩

/-- Sequencing: run `o`; on success feed its value and state to `k`,
on an exception propagate it (later statements do not run). -/
def bindO {α β : Type} (o : Outcome α) (k : α → World → Outcome β) : Outcome β :=
  match o.result with
  | .error s => ⟨o.trace, o.world, .error s⟩
  | .ok a =>
    let o2 := k a o.world
    ⟨o.trace ++ o2.trace, o2.world, o2.result⟩

/-- `try`/`except`: run `o`; on an exception run the handler on the message. -/
def tryO {α : Type} (o : Outcome α) (h : String → World → Outcome α) : Outcome α :=
  match o.result with
  | .ok _ => o
  | .error s =>
    let o2 := h s o.world
    ⟨o.trace ++ o2.trace, o2.world, o2.result⟩

/-- Lift a pure fallible value into an outcome (no events issued). -/
def ofExcept {α : Type} (r : Except String α) (w : World) : Outcome α :=
  ⟨[], w, r⟩

/-- `Path.joinpath` on string paths. -/
def joinPath (a b : String) : String := a ++ "/" ++ b

/-! ## The script's functions (tasks.py), in source order -/

/-- `embed_screenshot_to_receipt` (lines 49-58): one watermark call writing
the PDF in place. -/
def embed_screenshot_to_receipt (env : Env) (screenshot_file pdf_file : String)
    (w : World) : Outcome Unit :=
  primU env (.watermarkPdf screenshot_file pdf_file pdf_file) w

/-- `archive_receipts` (lines 60-68): zip the receipts folder. -/
def archive_receipts (env : Env) (w : World) : Outcome Unit :=
  primU env (.archiveZip (joinPath w.config.output_dir "receipts")
    (joinPath w.config.output_dir "receipts.zip")) w

/-- Selector of the preview image for a head part (f-string, line 96). -/
def headSel (head : String) : String :=
  "#robot-preview-image img[src=\x27/heads/" ++ head ++ ".png\x27]"

/-- Selector of the preview image for a body part (f-string, line 99). -/
def bodySel (body : String) : String :=
  "#robot-preview-image img[src=\x27/bodies/" ++ body ++ ".png\x27]"

/-- Selector of the preview image for a legs part (f-string, line 102). -/
def legsSel (legs : String) : String :=
  "#robot-preview-image img[src=\x27/legs/" ++ legs ++ ".png\x27]"

/-- `await_robot_preview` (lines 81-103): wait for the container, then for
each part whose identifier is truthy (non-empty), each wait under `tmo`
(the source signature defaults `timeout` to `5000`). -/
def await_robot_preview (env : Env) (head body legs : String) (tmo : Nat)
    (w : World) : Outcome Unit :=
  bindO (primU env (.waitSel "#robot-preview-image" tmo) w) (fun _ w1 =>
  bindO (if head = "" then skipO w1 else primU env (.waitSel (headSel head) tmo) w1) (fun _ w2 =>
  bindO (if body = "" then skipO w2 else primU env (.waitSel (bodySel body) tmo) w2) (fun _ w3 =>
  if legs = "" then skipO w3 else primU env (.waitSel (legsSel legs) tmo) w3)))

/-- `screenshot_robot` (lines 105-114): build the screenshot path, wait for
the preview (with `await_robot_preview`'s default timeout of 5000 ms), take
the screenshot, return the path. -/
def screenshot_robot (env : Env) (order : Order) (w : World) : Outcome String :=
  let file_name : String := "robot-" ++ order.order_number ++ ".png"
  let full_path : String := joinPath (joinPath w.config.output_dir "screenshots") file_name
  bindO (await_robot_preview env order.head order.body order.legs 5000 w) (fun _ w1 =>
  bindO (primU env (.screenshot full_path) w1) (fun _ w2 =>
  ⟨[], w2, .ok full_path⟩))

/-- `store_receipt_as_pdf` (lines 70-79): screenshot first (line 75), then
extract the receipt HTML, render it to PDF, embed the screenshot. -/
def store_receipt_as_pdf (env : Env) (order : Order) (w : World) : Outcome Unit :=
  bindO (screenshot_robot env order w) (fun screenshot_file w1 =>
  bindO (primS env (.innerHtml "#receipt") w1) (fun receipt_html w2 =>
  let receipt_file : String :=
    joinPath (joinPath w2.config.output_dir "receipts")
      ("receipt-" ++ order.order_number ++ ".pdf")
  bindO (primU env (.htmlToPdf receipt_html receipt_file) w2) (fun _ w3 =>
  embed_screenshot_to_receipt env screenshot_file receipt_file w3)))

/-- `fill_order_form` (lines 127-134). -/
def fill_order_form (env : Env) (order : Order) (w : World) : Outcome Unit :=
  bindO (primU env (.selectOption "#head" order.head) w) (fun _ w1 =>
  bindO (primU env (.click ("#id-body-" ++ order.body) none) w1) (fun _ w2 =>
  bindO (primU env (.fillField "input.form-control[type=\x27number\x27]" order.legs) w2) (fun _ w3 =>
  primU env (.fillField "#address" order.address) w3)))

/-- The `click_order` lambda of `submit_order` (line 143). -/
def clickOrderEv : BEvent := .click "button:text(\x27Order\x27)" (some 1000)

/-- The `wait_for_receipt` lambda of `submit_order` (line 144). -/
def receiptWaitEv : BEvent := .waitSel "#receipt" 1000

/-- `click_order` lambda: click the Order button, 1000 ms timeout. -/
def click_order (env : Env) (w : World) : Outcome Unit := primU env clickOrderEv w

/-- `wait_for_receipt` lambda: wait for `#receipt` visible, 1000 ms timeout. -/
def wait_for_receipt (env : Env) (w : World) : Outcome Unit := primU env receiptWaitEv w

/-- One click-and-wait submit attempt: the body of both the initial `try`
and of each retry iteration (`click_order(); wait_for_receipt()`). -/
def submit_attempt (env : Env) (w : World) : Outcome Unit :=
  bindO (click_order env w) (fun _ w1 => wait_for_receipt env w1)

/-- The `while not success` retry loop of `submit_order` (lines 149-160),
entered with the initial exception message `e`.  Each iteration increments
`retry_count`; while `retry_count <= max_retries` it re-runs one attempt and
swallows its failure, otherwise it raises.  The loop is embedded by recursion
on the remaining budget `max_retries + 1 - retry_count`: at budget `fuel + 1`
the guard holds and one attempt runs, at budget `0` the guard fails and the
exception is raised. -/
def submit_retries (env : Env) (maxRetries : Nat) (e : String) :
    Nat → World → Outcome Unit
  | 0, w =>
    ⟨[], w, .error ("Failed to return to order form after " ++ toString maxRetries
      ++ " attempts: " ++ e)⟩
  | fuel + 1, w =>
    tryO (submit_attempt env w) (fun _f w2 => submit_retries env maxRetries e fuel w2)

/-- `submit_order` (lines 136-160): one initial click-and-wait attempt; on an
exception, the retry loop with `max_retries = 3` and the original message. -/
def submit_order (env : Env) (w : World) : Outcome Unit :=
  tryO (submit_attempt env w) (fun e w2 => submit_retries env 3 e 3 w2)

/-- `go_back_to_order_form` (lines 162-166). -/
def go_back_to_order_form (env : Env) (w : World) : Outcome Unit :=
  primU env (.click "button:text(\x27Order another robot\x27)" (some 1000)) w

/-- `close_annoying_modal` (lines 168-172): click OK, no explicit timeout. -/
def close_annoying_modal (env : Env) (w : World) : Outcome Unit :=
  primU env (.click "button:text(\x27OK\x27)" none) w

/-- `open_robot_order_website` (lines 174-181). -/
def open_robot_order_website (env : Env) (w : World) : Outcome Unit :=
  primU env (.goto w.config.robot_order_website_url) w

/-- `fill_and_submit_sales_form` (lines 116-125): for each order in turn,
fill the form, submit with retry, capture the receipt, navigate back and
dismiss the modal. -/
def fill_and_submit_sales_form (env : Env) (orders : List Order) (w : World) :
    Outcome Unit :=
  match orders with
  | [] => ⟨[], w, .ok ()⟩
  | order :: rest =>
    bindO (fill_order_form env order w) (fun _ w1 =>
    bindO (submit_order env w1) (fun _ w2 =>
    bindO (store_receipt_as_pdf env order w2) (fun _ w3 =>
    bindO (go_back_to_order_form env w3) (fun _ w4 =>
    bindO (close_annoying_modal env w4) (fun _ w5 =>
    fill_and_submit_sales_form env rest w5)))))

/-- Dictionary access `row[col]` on a CSV row: `KeyError` when absent. -/
def getCol (r : Row) (col : String) : Except String String :=
  match List.lookup col r with
  | some v => .ok v
  | none => .error ("KeyError: " ++ col)

/-- One `Order(...)` construction of the comprehension in `get_orders`
(lines 194-199): the five column accesses, in source order, the first
missing column raising. -/
def mkOrder (r : Row) : Except String Order :=
  match getCol r "Order number" with
  | .error s => .error s
  | .ok order_number =>
  match getCol r "Head" with
  | .error s => .error s
  | .ok head =>
  match getCol r "Body" with
  | .error s => .error s
  | .ok body =>
  match getCol r "Legs" with
  | .error s => .error s
  | .ok legs =>
  match getCol r "Address" with
  | .error s => .error s
  | .ok address => .ok ⟨order_number, head, body, legs, address⟩

/-- The list comprehension of `get_orders` (lines 193-203): build one order
per row, in row order, the first failing row aborting the whole parse. -/
def ordersOfRows : List Row → Except String (List Order)
  | [] => .ok []
  | r :: rs =>
    match mkOrder r with
    | .error s => .error s
    | .ok o =>
      match ordersOfRows rs with
      | .error s => .error s
      | .ok os => .ok (o :: os)

/-- `get_orders` (lines 183-203): read the local CSV named by the config and
build the orders row by row, preserving row order; any failure propagates. -/
def get_orders (env : Env) (w : World) : Except String (List Order) :=
  match env.csv w.config.orders_file_name with
  | .error s => .error s
  | .ok rows => ordersOfRows rows

/-- `download_file` (lines 205-214): one HTTP download with `overwrite=True`. -/
def download_file (env : Env) (url file_name : String) (w : World) : Outcome Unit :=
  primU env (.httpDownload url file_name true) w

/-- The state at process start: no event issued yet; the `Config()`
constructed at line 23 lives in the world from the start. -/
def initialWorld : World := ⟨fun _ => 0, {}⟩

/-- `order_robots_from_RobotSpareBin` (lines 11-29), the task entry point:
construct the config, download the CSV, parse the orders, open the site,
dismiss the modal, process every order, archive the receipts. -/
def order_robots_from_RobotSpareBin (env : Env) : Outcome Unit :=
  bindO (download_file env initialWorld.config.orders_file_url
      initialWorld.config.orders_file_name initialWorld) (fun _ w1 =>
  bindO (ofExcept (get_orders env w1) w1) (fun orders w2 =>
  bindO (open_robot_order_website env w2) (fun _ w3 =>
  bindO (close_annoying_modal env w3) (fun _ w4 =>
  bindO (fill_and_submit_sales_form env orders w4) (fun _ w5 =>
  archive_receipts env w5)))))

/-! ## Derived notions used by the specification theorems -/

/-- State of the run after `n` consecutive click-and-wait attempts from `w`. -/
def afterAttempts (env : Env) (w : World) : Nat → World
  | 0 => w
  | n + 1 => (submit_attempt env (afterAttempts env w n)).world

/-- Events issued by `n` consecutive click-and-wait attempts from `w`. -/
def attemptsTrace (env : Env) (w : World) : Nat → List BEvent
  | 0 => []
  | n + 1 => (submit_attempt env w).trace ++ attemptsTrace env (submit_attempt env w).world n

/-- The computation left the shared `Config` object as it found it. -/
def KeepsConfig {α : Type} (o : Outcome α) (w : World) : Prop :=
  o.world.config = w.config

/-- Number of occurrences of `ev` in a trace. -/
def countEv (ev : BEvent) : List BEvent → Nat
  | [] => 0
  | e :: t => (if e = ev then 1 else 0) + countEv ev t

/-- The selector waits `await_robot_preview` plans, in source order: the
container first, then one wait per non-empty part — head, body, legs. -/
def previewWaitList (hd bd lg : String) (tmo : Nat) : List BEvent :=
  .waitSel "#robot-preview-image" tmo ::
    ((if hd = "" then [] else [.waitSel (headSel hd) tmo]) ++
     ((if bd = "" then [] else [.waitSel (bodySel bd) tmo]) ++
      (if lg = "" then [] else [.waitSel (legsSel lg) tmo])))

/-- `o` issues a prefix of the planned event list `L` (so each planned action
runs at most once, in order), the whole of `L` when `o` succeeds. -/
def TakeSpec (o : Outcome Unit) (L : List BEvent) : Prop :=
  (∃ n, o.trace = L.take n) ∧ (o.result = .ok () → o.trace = L)

/-- Any exception `o` raises is the verbatim message of one of the actions it
issued (nothing is caught, rewrapped or retried). -/
def ErrSpec (env : Env) (o : Outcome Unit) : Prop :=
  ∀ s, o.result = .error s → ∃ ev i, ev ∈ o.trace ∧ env.act ev i = .error s

/-- Where `screenshot_robot` puts the screenshot of one order. -/
def screenshotPath (order : Order) (cfg : Config) : String :=
  joinPath (joinPath cfg.output_dir "screenshots") ("robot-" ++ order.order_number ++ ".png")

/-- Where `store_receipt_as_pdf` puts the PDF receipt of one order. -/
def receiptPath (order : Order) (cfg : Config) : String :=
  joinPath (joinPath cfg.output_dir "receipts") ("receipt-" ++ order.order_number ++ ".pdf")

/-- The screenshot files written along a trace, in order. -/
def screenshotFiles (t : List BEvent) : List String :=
  t.filterMap (fun ev => match ev with | .screenshot p => some p | _ => none)

/-- The PDF files rendered along a trace, in order. -/
def pdfFiles (t : List BEvent) : List String :=
  t.filterMap (fun ev => match ev with | .htmlToPdf _ p => some p | _ => none)

/-- The form-fill interactions of one order, in source order. -/
def fillFormList (order : Order) : List BEvent :=
  [.selectOption "#head" order.head,
   .click ("#id-body-" ++ order.body) none,
   .fillField "input.form-control[type=\x27number\x27]" order.legs,
   .fillField "#address" order.address]

/-- Two states agree on the two submit-related counters. -/
def SubmitAgree (w w2 : World) : Prop :=
  w.counts clickOrderEv = w2.counts clickOrderEv ∧
  w.counts receiptWaitEv = w2.counts receiptWaitEv

/-- `o` only bumps counters of events in `L`. -/
def AddsOnly {α : Type} (o : Outcome α) (w : World) (L : List BEvent) : Prop :=
  ∀ ev, ev ∉ L → o.world.counts ev = w.counts ev

/-- Every page interaction and library call other than the submit click and
the receipt wait succeeds, at every occurrence. -/
def OtherActsOk (env : Env) : Prop :=
  ∀ ev i, ev ≠ clickOrderEv → ev ≠ receiptWaitEv → ∃ v, env.act ev i = .ok v

/-- Every action succeeds (returning "H"); the CSV file is empty. -/
def envAllOk : Env := ⟨fun _ _ => .ok "H", fun _ => .ok []⟩

/-- A sample order. -/
def ord1 : Order := ⟨"1", "1", "2", "3", "Main St 1"⟩

/-- The order of the spec's preview example, with head "3". -/
def ordHead3 : Order := ⟨"1", "3", "2", "3", "Main St 1"⟩

/-- The receipt wait times out on its first occurrence only: the initial
submit attempt fails, the first retry succeeds. -/
def envRetry1 : Env :=
  ⟨fun ev i => if ev = receiptWaitEv ∧ i = 0 then .error "receipt timeout" else .ok "H",
   fun _ => .ok []⟩

/-- The receipt wait always times out: every submit attempt fails. -/
def envNoReceipt : Env :=
  ⟨fun ev _ => if ev = receiptWaitEv then .error "receipt timeout" else .ok "H",
   fun _ => .ok []⟩

/-- The preview image for head "3" never appears. -/
def envNoHead : Env :=
  ⟨fun ev _ => if ev = .waitSel (headSel "3") 5000 then .error "preview timeout" else .ok "H",
   fun _ => .ok []⟩

/-- A well-formed CSV row matching `ord1`. -/
def row1 : Row :=
  [("Order number", "1"), ("Head", "1"), ("Body", "2"), ("Legs", "3"),
   ("Address", "Main St 1")]

/-- A malformed CSV row: only the order-number column is present. -/
def rowBad : Row := [("Order number", "2")]

/-- Benign browser, one good CSV row. -/
def envCsv : Env := ⟨fun _ _ => .ok "H", fun _ => .ok [row1]⟩

/-- Benign browser, a good row followed by a row missing columns. -/
def envCsvBad : Env := ⟨fun _ _ => .ok "H", fun _ => .ok [row1, rowBad]⟩

/-- The HTTP download of the orders file fails. -/
def envDownFail : Env :=
  ⟨fun ev _ => match ev with
    | .httpDownload _ _ _ => .error "connection refused"
    | _ => .ok "H",
   fun _ => .ok []⟩

/-! ## Combinator lemmas -/

theorem bindO_error_eq {α β : Type} {o : Outcome α} (k : α → World → Outcome β)
    (s : String) (h : o.result = .error s) :
    bindO o k = ⟨o.trace, o.world, .error s⟩ := by
  unfold bindO; rw [h]

theorem bindO_ok_eq {α β : Type} {o : Outcome α} (k : α → World → Outcome β)
    (a : α) (h : o.result = .ok a) :
    bindO o k =
      ⟨o.trace ++ (k a o.world).trace, (k a o.world).world, (k a o.world).result⟩ := by
  unfold bindO; rw [h]

theorem tryO_ok_eq {α : Type} {o : Outcome α} (hnd : String → World → Outcome α)
    (a : α) (ha : o.result = .ok a) : tryO o hnd = o := by
  unfold tryO; rw [ha]

theorem tryO_error_eq {α : Type} {o : Outcome α} (hnd : String → World → Outcome α)
    (s : String) (hs : o.result = .error s) :
    tryO o hnd =
      ⟨o.trace ++ (hnd s o.world).trace, (hnd s o.world).world, (hnd s o.world).result⟩ := by
  unfold tryO; rw [hs]

theorem primU_result_error {env : Env} {ev : BEvent} {w : World} {s : String} :
    (primU env ev w).result = .error s ↔ env.act ev (w.counts ev) = .error s := by
  simp only [primU]
  cases h : env.act ev (w.counts ev) <;> simp [h, Except.map]

theorem primU_result_ok {env : Env} {ev : BEvent} {w : World} :
    (primU env ev w).result = .ok () ↔ ∃ v, env.act ev (w.counts ev) = .ok v := by
  simp only [primU]
  cases h : env.act ev (w.counts ev) <;> simp [h, Except.map]

theorem bump_ne {c : Counts} {ev e : BEvent} (h : e ≠ ev) : bump c ev e = c e := by
  simp [bump, h]

theorem bump_self (c : Counts) (ev : BEvent) : bump c ev ev = c ev + 1 := by
  simp [bump]

/-! ## The submit retry loop -/

/-- The two submit events are distinct page interactions. -/
theorem click_ne_receipt : clickOrderEv ≠ receiptWaitEv := by decide

theorem afterAttempts_shift (env : Env) (w : World) (n : Nat) :
    afterAttempts env (submit_attempt env w).world n = afterAttempts env w (n + 1) := by
  induction n with
  | zero => rfl
  | succ n ih => simp only [afterAttempts, ih]

/-- Characterisation of one attempt whose click raises: the wait is skipped. -/
theorem submit_attempt_click_error {env : Env} {w : World} {s : String}
    (h : env.act clickOrderEv (w.counts clickOrderEv) = .error s) :
    submit_attempt env w =
      ⟨[clickOrderEv], ⟨bump w.counts clickOrderEv, w.config⟩, .error s⟩ := by
  unfold submit_attempt click_order
  rw [bindO_error_eq _ s (by simp [primU, h, Except.map])]
  simp [primU, h, Except.map]

/-- Characterisation of one attempt whose click succeeds: the click is
followed by exactly one receipt wait, whose outcome decides the attempt. -/
theorem submit_attempt_click_ok {env : Env} {w : World} {v : String}
    (h : env.act clickOrderEv (w.counts clickOrderEv) = .ok v) :
    submit_attempt env w =
      ⟨[clickOrderEv, receiptWaitEv],
       ⟨bump (bump w.counts clickOrderEv) receiptWaitEv, w.config⟩,
       (env.act receiptWaitEv (w.counts receiptWaitEv)).map (fun _ => ())⟩ := by
  unfold submit_attempt click_order wait_for_receipt
  rw [bindO_ok_eq _ () (by simp [primU, h, Except.map])]
  simp only [primU]
  have hb : bump w.counts clickOrderEv receiptWaitEv = w.counts receiptWaitEv :=
    bump_ne (fun hc => click_ne_receipt hc.symm)
  simp [hb]

/-- Every attempt issues the Order-button click and, as soon as that click
went through, the receipt wait: nothing else. -/
theorem submit_attempt_trace_cases (env : Env) (w : World) :
    (submit_attempt env w).trace = [clickOrderEv] ∨
    (submit_attempt env w).trace = [clickOrderEv, receiptWaitEv] := by
  cases h : env.act clickOrderEv (w.counts clickOrderEv) with
  | error s => exact Or.inl (by rw [submit_attempt_click_error h])
  | ok v => exact Or.inr (by rw [submit_attempt_click_ok h])

/-- A successful attempt is exactly one click followed by one receipt wait. -/
theorem submit_attempt_ok_trace {env : Env} {w : World}
    (h : (submit_attempt env w).result = .ok ()) :
    (submit_attempt env w).trace = [clickOrderEv, receiptWaitEv] := by
  cases hc : env.act clickOrderEv (w.counts clickOrderEv) with
  | error s => rw [submit_attempt_click_error hc] at h; exact absurd h (by simp)
  | ok v => rw [submit_attempt_click_ok hc]

/-- The retry loop, when attempt `m < fuel` is the first to succeed, stops
right there with a success. -/
theorem submit_retries_ok (env : Env) (e : String) :
    ∀ fuel m, m < fuel →
    ∀ w, (∀ i, i < m → ¬ (submit_attempt env (afterAttempts env w i)).result = .ok ()) →
    (submit_attempt env (afterAttempts env w m)).result = .ok () →
    submit_retries env 3 e fuel w =
      ⟨attemptsTrace env w (m + 1), afterAttempts env w (m + 1), .ok ()⟩ := by
  intro fuel
  induction fuel with
  | zero => intro m hm; exact absurd hm (Nat.not_lt_zero m)
  | succ fuel ih =>
    intro m hm w hfail hok
    cases m with
    | zero =>
      have h0 : (submit_attempt env w).result = .ok () := hok
      unfold submit_retries
      rw [tryO_ok_eq _ () h0]
      have he : submit_attempt env w =
          ⟨(submit_attempt env w).trace, (submit_attempt env w).world,
           (submit_attempt env w).result⟩ := rfl
      rw [he, h0]
      simp [attemptsTrace, afterAttempts]
    | succ m =>
      have h0 : ¬ (submit_attempt env w).result = .ok () := hfail 0 (Nat.succ_pos m)
      obtain ⟨s, hs⟩ : ∃ s, (submit_attempt env w).result = .error s := by
        cases hr : (submit_attempt env w).result with
        | ok u => cases u; exact absurd hr h0
        | error s => exact ⟨s, rfl⟩
      unfold submit_retries
      rw [tryO_error_eq _ s hs]
      have hrec := ih m (Nat.lt_of_succ_lt_succ hm) (submit_attempt env w).world
        (fun i hi => by
          rw [afterAttempts_shift]
          exact hfail (i + 1) (Nat.succ_lt_succ hi))
        (by rw [afterAttempts_shift]; exact hok)
      rw [hrec]
      simp only [attemptsTrace, afterAttempts_shift]

/-- The retry loop, when every attempt within the budget fails, exhausts the
budget and raises the escalation message built from `max_retries = 3` and the
original exception `e`. -/
theorem submit_retries_fail (env : Env) (e : String) :
    ∀ fuel w, (∀ i, i < fuel → ¬ (submit_attempt env (afterAttempts env w i)).result = .ok ()) →
    submit_retries env 3 e fuel w =
      ⟨attemptsTrace env w fuel, afterAttempts env w fuel,
       .error ("Failed to return to order form after " ++ toString (3 : Nat)
         ++ " attempts: " ++ e)⟩ := by
  intro fuel
  induction fuel with
  | zero =>
    intro w _
    simp [submit_retries, attemptsTrace, afterAttempts]
  | succ fuel ih =>
    intro w hfail
    have h0 : ¬ (submit_attempt env w).result = .ok () := hfail 0 (Nat.succ_pos fuel)
    obtain ⟨s, hs⟩ : ∃ s, (submit_attempt env w).result = .error s := by
      cases hr : (submit_attempt env w).result with
      | ok u => cases u; exact absurd hr h0
      | error s => exact ⟨s, rfl⟩
    unfold submit_retries
    rw [tryO_error_eq _ s hs]
    have hrec := ih (submit_attempt env w).world (fun i hi => by
      rw [afterAttempts_shift]
      exact hfail (i + 1) (Nat.succ_lt_succ hi))
    rw [hrec]
    simp only [attemptsTrace, afterAttempts_shift]

/-- `submit_order` when the attempts fail up to attempt `K` (0-based) and
attempt `K` succeeds, `K ≤ 3`: it returns normally after `K + 1` attempts. -/
theorem submit_order_ok (env : Env) (w : World) (K : Nat) (hK : K ≤ 3)
    (hfail : ∀ i, i < K → ¬ (submit_attempt env (afterAttempts env w i)).result = .ok ())
    (hok : (submit_attempt env (afterAttempts env w K)).result = .ok ()) :
    submit_order env w =
      ⟨attemptsTrace env w (K + 1), afterAttempts env w (K + 1), .ok ()⟩ := by
  cases K with
  | zero =>
    have h0 : (submit_attempt env w).result = .ok () := hok
    unfold submit_order
    rw [tryO_ok_eq _ () h0]
    have he : submit_attempt env w =
        ⟨(submit_attempt env w).trace, (submit_attempt env w).world,
         (submit_attempt env w).result⟩ := rfl
    rw [he, h0]
    simp [attemptsTrace, afterAttempts]
  | succ K =>
    have h0 : ¬ (submit_attempt env w).result = .ok () := hfail 0 (Nat.succ_pos K)
    obtain ⟨s, hs⟩ : ∃ s, (submit_attempt env w).result = .error s := by
      cases hr : (submit_attempt env w).result with
      | ok u => cases u; exact absurd hr h0
      | error s => exact ⟨s, rfl⟩
    unfold submit_order
    rw [tryO_error_eq _ s hs]
    have hrec := submit_retries_ok env s 3 K (by omega) (submit_attempt env w).world
      (fun i hi => by
        rw [afterAttempts_shift]
        exact hfail (i + 1) (Nat.succ_lt_succ hi))
      (by rw [afterAttempts_shift]; exact hok)
    rw [hrec]
    simp only [attemptsTrace, afterAttempts_shift]

/-- `submit_order` when the initial attempt and all three retries fail: it
raises, quoting the retry count and the original (first-attempt) message. -/
theorem submit_order_exhaust (env : Env) (w : World) (s0 : String)
    (h0 : (submit_attempt env w).result = .error s0)
    (hfail : ∀ i, i < 4 → ¬ (submit_attempt env (afterAttempts env w i)).result = .ok ()) :
    submit_order env w =
      ⟨attemptsTrace env w 4, afterAttempts env w 4,
       .error ("Failed to return to order form after " ++ toString (3 : Nat)
         ++ " attempts: " ++ s0)⟩ := by
  unfold submit_order
  rw [tryO_error_eq _ s0 h0]
  have hrec := submit_retries_fail env s0 3 (submit_attempt env w).world (fun i hi => by
    rw [afterAttempts_shift]
    exact hfail (i + 1) (by omega))
  rw [hrec]
  simp only [attemptsTrace, afterAttempts_shift]

/-! ## The config object is never written -/

theorem keeps_primU {env : Env} {ev : BEvent} {w : World} :
    KeepsConfig (primU env ev w) w := rfl

theorem keeps_primS {env : Env} {ev : BEvent} {w : World} :
    KeepsConfig (primS env ev w) w := rfl

theorem keeps_skipO {w : World} : KeepsConfig (skipO w) w := rfl

theorem keeps_ofExcept {α : Type} {r : Except String α} {w : World} :
    KeepsConfig (ofExcept r w) w := rfl

theorem keeps_bindO {α β : Type} {o : Outcome α} {k : α → World → Outcome β} {w : World}
    (h1 : KeepsConfig o w) (h2 : ∀ a, KeepsConfig (k a o.world) o.world) :
    KeepsConfig (bindO o k) w := by
  cases hr : o.result with
  | error s => rw [KeepsConfig, bindO_error_eq k s hr]; exact h1
  | ok a => rw [KeepsConfig, bindO_ok_eq k a hr]; exact (h2 a).trans h1

theorem keeps_tryO {α : Type} {o : Outcome α} {hnd : String → World → Outcome α} {w : World}
    (h1 : KeepsConfig o w) (h2 : ∀ s, KeepsConfig (hnd s o.world) o.world) :
    KeepsConfig (tryO o hnd) w := by
  cases hr : o.result with
  | ok a => rw [KeepsConfig, tryO_ok_eq hnd a hr]; exact h1
  | error s => rw [KeepsConfig, tryO_error_eq hnd s hr]; exact (h2 s).trans h1

theorem keeps_await (env : Env) (hd bd lg : String) (tmo : Nat) (w : World) :
    KeepsConfig (await_robot_preview env hd bd lg tmo w) w := by
  refine keeps_bindO keeps_primU (fun a => ?_)
  refine keeps_bindO ?_ (fun a2 => ?_)
  · split
    · exact keeps_skipO
    · exact keeps_primU
  · refine keeps_bindO ?_ (fun a3 => ?_)
    · split
      · exact keeps_skipO
      · exact keeps_primU
    · split
      · exact keeps_skipO
      · exact keeps_primU

theorem keeps_screenshot_robot (env : Env) (order : Order) (w : World) :
    KeepsConfig (screenshot_robot env order w) w := by
  refine keeps_bindO (keeps_await env order.head order.body order.legs 5000 w) (fun a => ?_)
  exact keeps_bindO keeps_primU (fun a2 => rfl)

theorem keeps_store_receipt (env : Env) (order : Order) (w : World) :
    KeepsConfig (store_receipt_as_pdf env order w) w := by
  refine keeps_bindO (keeps_screenshot_robot env order w) (fun a => ?_)
  refine keeps_bindO keeps_primS (fun a2 => ?_)
  exact keeps_bindO keeps_primU (fun a3 => keeps_primU)

theorem keeps_fill_order_form (env : Env) (order : Order) (w : World) :
    KeepsConfig (fill_order_form env order w) w := by
  refine keeps_bindO keeps_primU (fun a => ?_)
  refine keeps_bindO keeps_primU (fun a2 => ?_)
  exact keeps_bindO keeps_primU (fun a3 => keeps_primU)

theorem keeps_submit_attempt (env : Env) (w : World) :
    KeepsConfig (submit_attempt env w) w :=
  keeps_bindO keeps_primU (fun _ => keeps_primU)

theorem keeps_submit_retries (env : Env) (mr : Nat) (e : String) :
    ∀ fuel w, KeepsConfig (submit_retries env mr e fuel w) w := by
  intro fuel
  induction fuel with
  | zero => intro w; rfl
  | succ fuel ih =>
    intro w
    exact keeps_tryO (keeps_submit_attempt env w) (fun s => ih _)

theorem keeps_submit_order (env : Env) (w : World) :
    KeepsConfig (submit_order env w) w :=
  keeps_tryO (keeps_submit_attempt env w) (fun s => keeps_submit_retries env 3 s 3 _)

theorem keeps_fill_and_submit (env : Env) :
    ∀ orders w, KeepsConfig (fill_and_submit_sales_form env orders w) w := by
  intro orders
  induction orders with
  | nil => intro w; rfl
  | cons o rest ih =>
    intro w
    refine keeps_bindO (keeps_fill_order_form env o w) (fun a => ?_)
    refine keeps_bindO (keeps_submit_order env _) (fun a2 => ?_)
    refine keeps_bindO (keeps_store_receipt env o _) (fun a3 => ?_)
    refine keeps_bindO keeps_primU (fun a4 => ?_)
    exact keeps_bindO keeps_primU (fun a5 => ih _)

theorem keeps_order_robots (env : Env) :
    (order_robots_from_RobotSpareBin env).world.config = initialWorld.config := by
  refine keeps_bindO keeps_primU (fun a => ?_)
  refine keeps_bindO keeps_ofExcept (fun orders => ?_)
  refine keeps_bindO keeps_primU (fun a2 => ?_)
  refine keeps_bindO keeps_primU (fun a3 => ?_)
  exact keeps_bindO (keeps_fill_and_submit env orders _) (fun a4 => keeps_primU)

/-! ## Counting events -/

theorem countEv_append (ev : BEvent) (t1 t2 : List BEvent) :
    countEv ev (t1 ++ t2) = countEv ev t1 + countEv ev t2 := by
  induction t1 with
  | nil => simp [countEv]
  | cons e t ih => simp [countEv, ih]; omega

theorem submit_attempt_countEv_le (env : Env) (w : World) (ev : BEvent) :
    countEv ev (submit_attempt env w).trace ≤ 1 := by
  rcases submit_attempt_trace_cases env w with h | h <;> rw [h] <;> simp only [countEv]
  · split <;> omega
  · split_ifs with h1 h2
    · exact absurd (h1.trans h2.symm) click_ne_receipt
    · omega
    · omega
    · omega

theorem submit_retries_countEv_le (env : Env) (mr : Nat) (e : String) (ev : BEvent) :
    ∀ fuel w, countEv ev (submit_retries env mr e fuel w).trace ≤ fuel := by
  intro fuel
  induction fuel with
  | zero => intro w; simp [submit_retries, countEv]
  | succ fuel ih =>
    intro w
    cases hr : (submit_attempt env w).result with
    | ok a =>
      cases a
      rw [submit_retries, tryO_ok_eq _ () hr]
      exact le_trans (submit_attempt_countEv_le env w ev) (by omega)
    | error s =>
      rw [submit_retries, tryO_error_eq _ s hr]
      simp only [countEv_append]
      have h1 := submit_attempt_countEv_le env w ev
      have h2 := ih (submit_attempt env w).world
      omega

theorem submit_order_countEv_le (env : Env) (w : World) (ev : BEvent) :
    countEv ev (submit_order env w).trace ≤ 4 := by
  cases hr : (submit_attempt env w).result with
  | ok a =>
    cases a
    rw [submit_order, tryO_ok_eq _ () hr]
    exact le_trans (submit_attempt_countEv_le env w ev) (by omega)
  | error s =>
    rw [submit_order, tryO_error_eq _ s hr]
    simp only [countEv_append]
    have h1 := submit_attempt_countEv_le env w ev
    have h2 := submit_retries_countEv_le env 3 s ev 3 (submit_attempt env w).world
    omega

/-! ## Which events the submit phase can issue -/

theorem submit_attempt_events (env : Env) (w : World) :
    ∀ ev ∈ (submit_attempt env w).trace, ev = clickOrderEv ∨ ev = receiptWaitEv := by
  rcases submit_attempt_trace_cases env w with h | h <;> rw [h] <;> intro ev hev <;>
    simp only [List.mem_cons, List.mem_singleton, List.not_mem_nil] at hev
  · exact Or.inl (by tauto)
  · tauto

theorem submit_retries_events (env : Env) (mr : Nat) (e : String) :
    ∀ fuel w, ∀ ev ∈ (submit_retries env mr e fuel w).trace,
      ev = clickOrderEv ∨ ev = receiptWaitEv := by
  intro fuel
  induction fuel with
  | zero => intro w ev hev; simp [submit_retries] at hev
  | succ fuel ih =>
    intro w ev hev
    cases hr : (submit_attempt env w).result with
    | ok a =>
      cases a
      rw [submit_retries, tryO_ok_eq _ () hr] at hev
      exact submit_attempt_events env w ev hev
    | error s =>
      rw [submit_retries, tryO_error_eq _ s hr] at hev
      rcases List.mem_append.mp hev with h | h
      · exact submit_attempt_events env w ev h
      · exact ih _ ev h

theorem submit_order_events (env : Env) (w : World) :
    ∀ ev ∈ (submit_order env w).trace, ev = clickOrderEv ∨ ev = receiptWaitEv := by
  intro ev hev
  cases hr : (submit_attempt env w).result with
  | ok a =>
    cases a
    rw [submit_order, tryO_ok_eq _ () hr] at hev
    exact submit_attempt_events env w ev hev
  | error s =>
    rw [submit_order, tryO_error_eq _ s hr] at hev
    rcases List.mem_append.mp hev with h | h
    · exact submit_attempt_events env w ev h
    · exact submit_retries_events env 3 s 3 _ ev h

/-! ## Trace shape of the preview wait -/

theorem takeSpec_prim (env : Env) (ev : BEvent) (w : World) :
    TakeSpec (primU env ev w) [ev] :=
  ⟨⟨1, rfl⟩, fun _ => rfl⟩

theorem takeSpec_skip (w : World) : TakeSpec (skipO w) [] :=
  ⟨⟨0, rfl⟩, fun _ => rfl⟩

theorem takeSpec_bind {o : Outcome Unit} {k : Unit → World → Outcome Unit}
    {L1 L2 : List BEvent} (h1 : TakeSpec o L1) (h2 : ∀ w2, TakeSpec (k () w2) L2) :
    TakeSpec (bindO o k) (L1 ++ L2) := by
  obtain ⟨⟨n, hn⟩, hfull⟩ := h1
  cases hr : o.result with
  | error s =>
    rw [bindO_error_eq k s hr]
    constructor
    · by_cases hle : n ≤ L1.length
      · exact ⟨n, by rw [hn, List.take_append_of_le_length hle]⟩
      · refine ⟨L1.length, ?_⟩
        rw [hn, List.take_of_length_le (by omega),
          List.take_append_of_le_length (le_refl L1.length), List.take_length]
    · intro hok
      exact absurd hok (by simp)
  | ok a =>
    cases a
    rw [bindO_ok_eq k () hr]
    have hfull1 : o.trace = L1 := hfull hr
    obtain ⟨⟨m, hm⟩, kfull⟩ := h2 o.world
    constructor
    · refine ⟨L1.length + m, ?_⟩
      rw [hfull1, hm, List.take_append]
    · intro hok
      simp only at hok
      rw [hfull1, kfull hok]

theorem errSpec_prim (env : Env) (ev : BEvent) (w : World) :
    ErrSpec env (primU env ev w) := by
  intro s hs
  exact ⟨ev, w.counts ev, by simp [primU], primU_result_error.mp hs⟩

theorem errSpec_skip (env : Env) (w : World) : ErrSpec env (skipO w) := by
  intro s hs
  simp [skipO] at hs

theorem errSpec_bind {env : Env} {o : Outcome Unit} {k : Unit → World → Outcome Unit}
    (h1 : ErrSpec env o) (h2 : ∀ w2, ErrSpec env (k () w2)) :
    ErrSpec env (bindO o k) := by
  intro s hs
  cases hr : o.result with
  | error s2 =>
    rw [bindO_error_eq k s2 hr] at hs
    simp only at hs
    injection hs with hss
    subst hss
    obtain ⟨ev, i, hmem, hact⟩ := h1 s2 hr
    exact ⟨ev, i, by rw [bindO_error_eq k s2 hr]; exact hmem, hact⟩
  | ok a =>
    cases a
    rw [bindO_ok_eq k () hr] at hs
    simp only at hs
    obtain ⟨ev, i, hmem, hact⟩ := h2 o.world s hs
    refine ⟨ev, i, ?_, hact⟩
    rw [bindO_ok_eq k () hr]
    simp only [List.mem_append]
    exact Or.inr hmem

theorem await_takeSpec (env : Env) (hd bd lg : String) (tmo : Nat) (w : World) :
    TakeSpec (await_robot_preview env hd bd lg tmo w) (previewWaitList hd bd lg tmo) := by
  show TakeSpec _ ([BEvent.waitSel "#robot-preview-image" tmo] ++ _)
  refine takeSpec_bind (takeSpec_prim env _ w) (fun w1 => ?_)
  refine takeSpec_bind ?_ (fun w2 => ?_)
  · split
    · exact takeSpec_skip _
    · exact takeSpec_prim env _ _
  · refine takeSpec_bind ?_ (fun w3 => ?_)
    · split
      · exact takeSpec_skip _
      · exact takeSpec_prim env _ _
    · split
      · exact takeSpec_skip _
      · exact takeSpec_prim env _ _

theorem await_errSpec (env : Env) (hd bd lg : String) (tmo : Nat) (w : World) :
    ErrSpec env (await_robot_preview env hd bd lg tmo w) := by
  refine errSpec_bind (errSpec_prim env _ w) (fun w1 => ?_)
  refine errSpec_bind ?_ (fun w2 => ?_)
  · split
    · exact errSpec_skip env _
    · exact errSpec_prim env _ _
  · refine errSpec_bind ?_ (fun w3 => ?_)
    · split
      · exact errSpec_skip env _
      · exact errSpec_prim env _ _
    · split
      · exact errSpec_skip env _
      · exact errSpec_prim env _ _

theorem await_trace_mem (env : Env) (hd bd lg : String) (tmo : Nat) (w : World) :
    ∀ ev ∈ (await_robot_preview env hd bd lg tmo w).trace,
      ev ∈ previewWaitList hd bd lg tmo := by
  obtain ⟨⟨n, hn⟩, _⟩ := await_takeSpec env hd bd lg tmo w
  rw [hn]
  exact fun ev h => List.take_subset n _ h

theorem previewWaitList_mem (hd bd lg : String) (tmo : Nat) (ev : BEvent) :
    ev ∈ previewWaitList hd bd lg tmo ↔
      ev = .waitSel "#robot-preview-image" tmo ∨
      (hd ≠ "" ∧ ev = .waitSel (headSel hd) tmo) ∨
      (bd ≠ "" ∧ ev = .waitSel (bodySel bd) tmo) ∨
      (lg ≠ "" ∧ ev = .waitSel (legsSel lg) tmo) := by
  simp only [previewWaitList, List.mem_cons, List.mem_append]
  split_ifs <;> simp_all

theorem await_ok_trace {env : Env} {hd bd lg : String} {tmo : Nat} {w : World}
    (h : (await_robot_preview env hd bd lg tmo w).result = .ok ()) :
    (await_robot_preview env hd bd lg tmo w).trace = previewWaitList hd bd lg tmo :=
  (await_takeSpec env hd bd lg tmo w).2 h

/-! ## Output files named in the trace -/

theorem screenshotPath_default (o : Order) :
    screenshotPath o ({} : Config) =
      "output/screenshots/robot-" ++ o.order_number ++ ".png" := by
  simp only [screenshotPath, joinPath]
  rw [show ("output" ++ "/" ++ "screenshots" ++ "/" : String) = "output/screenshots/" by decide]
  rw [← String.append_assoc, ← String.append_assoc]
  rw [show ("output/screenshots/" ++ "robot-" : String) = "output/screenshots/robot-" by decide]

theorem receiptPath_default (o : Order) :
    receiptPath o ({} : Config) =
      "output/receipts/receipt-" ++ o.order_number ++ ".pdf" := by
  simp only [receiptPath, joinPath]
  rw [show ("output" ++ "/" ++ "receipts" ++ "/" : String) = "output/receipts/" by decide]
  rw [← String.append_assoc, ← String.append_assoc]
  rw [show ("output/receipts/" ++ "receipt-" : String) = "output/receipts/receipt-" by decide]

theorem screenshotFiles_append (t1 t2 : List BEvent) :
    screenshotFiles (t1 ++ t2) = screenshotFiles t1 ++ screenshotFiles t2 := by
  simp [screenshotFiles]

theorem pdfFiles_append (t1 t2 : List BEvent) :
    pdfFiles (t1 ++ t2) = pdfFiles t1 ++ pdfFiles t2 := by
  simp [pdfFiles]

theorem screenshotFiles_previewWaitList (hd bd lg : String) (tmo : Nat) :
    screenshotFiles (previewWaitList hd bd lg tmo) = [] := by
  refine List.filterMap_eq_nil_iff.mpr (fun ev hev => ?_)
  rcases (previewWaitList_mem hd bd lg tmo ev).mp hev with h | ⟨_, h⟩ | ⟨_, h⟩ | ⟨_, h⟩ <;>
    subst h <;> rfl

theorem pdfFiles_previewWaitList (hd bd lg : String) (tmo : Nat) :
    pdfFiles (previewWaitList hd bd lg tmo) = [] := by
  refine List.filterMap_eq_nil_iff.mpr (fun ev hev => ?_)
  rcases (previewWaitList_mem hd bd lg tmo ev).mp hev with h | ⟨_, h⟩ | ⟨_, h⟩ | ⟨_, h⟩ <;>
    subst h <;> rfl

theorem screenshotFiles_submit (env : Env) (w : World) :
    screenshotFiles (submit_order env w).trace = [] := by
  refine List.filterMap_eq_nil_iff.mpr (fun ev hev => ?_)
  rcases submit_order_events env w ev hev with h | h <;> subst h <;> rfl

theorem pdfFiles_submit (env : Env) (w : World) :
    pdfFiles (submit_order env w).trace = [] := by
  refine List.filterMap_eq_nil_iff.mpr (fun ev hev => ?_)
  rcases submit_order_events env w ev hev with h | h <;> subst h <;> rfl

theorem fill_takeSpec (env : Env) (order : Order) (w : World) :
    TakeSpec (fill_order_form env order w) (fillFormList order) := by
  show TakeSpec _ ([BEvent.selectOption "#head" order.head] ++
    ([BEvent.click ("#id-body-" ++ order.body) none] ++
     ([BEvent.fillField "input.form-control[type=\x27number\x27]" order.legs] ++
      [BEvent.fillField "#address" order.address])))
  refine takeSpec_bind (takeSpec_prim env _ w) (fun w1 => ?_)
  refine takeSpec_bind (takeSpec_prim env _ _) (fun w2 => ?_)
  exact takeSpec_bind (takeSpec_prim env _ _) (fun w3 => takeSpec_prim env _ _)

theorem fillFormList_mem (order : Order) (ev : BEvent) (h : ev ∈ fillFormList order) :
    ev = .selectOption "#head" order.head ∨
    ev = .click ("#id-body-" ++ order.body) none ∨
    ev = .fillField "input.form-control[type=\x27number\x27]" order.legs ∨
    ev = .fillField "#address" order.address := by
  simpa [fillFormList] using h

theorem screenshotFiles_fill (env : Env) (order : Order) (w : World) :
    screenshotFiles (fill_order_form env order w).trace = [] := by
  refine List.filterMap_eq_nil_iff.mpr (fun ev hev => ?_)
  obtain ⟨⟨n, hn⟩, _⟩ := fill_takeSpec env order w
  rw [hn] at hev
  rcases fillFormList_mem order ev (List.take_subset n _ hev) with h | h | h | h <;>
    subst h <;> rfl

theorem pdfFiles_fill (env : Env) (order : Order) (w : World) :
    pdfFiles (fill_order_form env order w).trace = [] := by
  refine List.filterMap_eq_nil_iff.mpr (fun ev hev => ?_)
  obtain ⟨⟨n, hn⟩, _⟩ := fill_takeSpec env order w
  rw [hn] at hev
  rcases fillFormList_mem order ev (List.take_subset n _ hev) with h | h | h | h <;>
    subst h <;> rfl

/-! ## Decomposing the capture step -/

theorem bindO_result_ok {α β : Type} {o : Outcome α} {k : α → World → Outcome β} {b : β}
    (h : (bindO o k).result = .ok b) :
    ∃ a, o.result = .ok a ∧ (k a o.world).result = .ok b := by
  cases hr : o.result with
  | error s => rw [bindO_error_eq k s hr] at h; exact absurd h (by simp)
  | ok a => rw [bindO_ok_eq k a hr] at h; exact ⟨a, rfl, by simpa using h⟩

/-- A failing preview wait makes `screenshot_robot` raise the same exception
before any screenshot is taken. -/
theorem screenshot_robot_await_error {env : Env} {order : Order} {w : World} {s : String}
    (h : (await_robot_preview env order.head order.body order.legs 5000 w).result = .error s) :
    screenshot_robot env order w =
      ⟨(await_robot_preview env order.head order.body order.legs 5000 w).trace,
       (await_robot_preview env order.head order.body order.legs 5000 w).world,
       .error s⟩ := by
  simp only [screenshot_robot]
  rw [bindO_error_eq _ s h]

/-- A successful `screenshot_robot` run waited for the full preview plan,
then took exactly one screenshot at the order's screenshot path, and returned
that path. -/
theorem screenshot_robot_ok {env : Env} {order : Order} {w : World} {p : String}
    (h : (screenshot_robot env order w).result = .ok p) :
    p = screenshotPath order w.config ∧
    (screenshot_robot env order w).trace =
      previewWaitList order.head order.body order.legs 5000 ++
        [.screenshot (screenshotPath order w.config)] ∧
    (screenshot_robot env order w).world.config = w.config := by
  have hk := keeps_screenshot_robot env order w
  simp only [screenshot_robot] at h ⊢
  obtain ⟨u, hA, h2⟩ := bindO_result_ok h
  cases u
  obtain ⟨u2, hP, h3⟩ := bindO_result_ok h2
  cases u2
  simp only at h3
  injection h3 with hp
  subst hp
  rw [bindO_ok_eq _ () hA, bindO_ok_eq _ () hP]
  refine ⟨rfl, ?_, ?_⟩
  · simp only [await_ok_trace hA]
    rfl
  · exact keeps_await env order.head order.body order.legs 5000 w

/-- A successful capture: wait for the preview, one screenshot, one receipt
HTML extraction, one PDF rendering at the order's receipt path, one watermark
embedding of the screenshot into that PDF — in this order. -/
theorem store_receipt_ok {env : Env} {order : Order} {w : World}
    (h : (store_receipt_as_pdf env order w).result = .ok ()) :
    ∃ v, (store_receipt_as_pdf env order w).trace =
      previewWaitList order.head order.body order.legs 5000 ++
      [.screenshot (screenshotPath order w.config),
       .innerHtml "#receipt",
       .htmlToPdf v (receiptPath order w.config),
       .watermarkPdf (screenshotPath order w.config) (receiptPath order w.config)
         (receiptPath order w.config)] := by
  simp only [store_receipt_as_pdf] at h ⊢
  obtain ⟨p, hS, h2⟩ := bindO_result_ok h
  obtain ⟨hp, htr, hcfg⟩ := screenshot_robot_ok hS
  subst hp
  obtain ⟨v, hH, h3⟩ := bindO_result_ok h2
  refine ⟨v, ?_⟩
  rw [bindO_ok_eq _ (screenshotPath order w.config) hS,
    bindO_ok_eq _ v hH]
  obtain ⟨u3, hPdf, h4⟩ := bindO_result_ok h3
  cases u3
  rw [bindO_ok_eq _ () hPdf]
  have hcfg2 : (primS env (.innerHtml "#receipt")
      (screenshot_robot env order w).world).world.config = w.config := hcfg
  simp only [htr, primS, primU, embed_screenshot_to_receipt, hcfg2, hcfg]
  simp [receiptPath, List.append_assoc]

/-! ## Output files of the whole batch -/

theorem trace_go_back (env : Env) (w : World) :
    (go_back_to_order_form env w).trace =
      [.click "button:text(\x27Order another robot\x27)" (some 1000)] := rfl

theorem trace_close (env : Env) (w : World) :
    (close_annoying_modal env w).trace = [.click "button:text(\x27OK\x27)" none] := rfl

theorem fill_and_submit_ok_files (env : Env) :
    ∀ (orders : List Order) (w : World),
    (fill_and_submit_sales_form env orders w).result = .ok () →
    screenshotFiles (fill_and_submit_sales_form env orders w).trace =
      orders.map (fun o => screenshotPath o w.config) ∧
    pdfFiles (fill_and_submit_sales_form env orders w).trace =
      orders.map (fun o => receiptPath o w.config) := by
  intro orders
  induction orders with
  | nil =>
    intro w h
    simp [fill_and_submit_sales_form, screenshotFiles, pdfFiles]
  | cons o rest ih =>
    intro w h
    simp only [fill_and_submit_sales_form] at h ⊢
    obtain ⟨u1, hF, h2⟩ := bindO_result_ok h
    cases u1
    obtain ⟨u2, hSub, h3⟩ := bindO_result_ok h2
    cases u2
    obtain ⟨u3, hStore, h4⟩ := bindO_result_ok h3
    cases u3
    obtain ⟨u4, hBack, h5⟩ := bindO_result_ok h4
    cases u4
    obtain ⟨u5, hClose, h6⟩ := bindO_result_ok h5
    cases u5
    have hc1 : (fill_order_form env o w).world.config = w.config :=
      keeps_fill_order_form env o w
    have hc2 : (submit_order env (fill_order_form env o w).world).world.config = w.config :=
      (keeps_submit_order env _).trans hc1
    obtain ⟨v, hst⟩ := store_receipt_ok hStore
    rw [hc2] at hst
    have hc3 : (store_receipt_as_pdf env o
        (submit_order env (fill_order_form env o w).world).world).world.config = w.config :=
      (keeps_store_receipt env o _).trans hc2
    have hc4 : (go_back_to_order_form env (store_receipt_as_pdf env o
        (submit_order env (fill_order_form env o w).world).world).world).world.config
        = w.config := hc3
    have hc5 : (close_annoying_modal env (go_back_to_order_form env
        (store_receipt_as_pdf env o (submit_order env
          (fill_order_form env o w).world).world).world).world).world.config = w.config := hc4
    obtain ⟨ihS, ihP⟩ := ih _ h6
    rw [bindO_ok_eq _ () hF, bindO_ok_eq _ () hSub, bindO_ok_eq _ () hStore,
      bindO_ok_eq _ () hBack, bindO_ok_eq _ () hClose]
    constructor
    · simp only [screenshotFiles_append, screenshotFiles_fill, screenshotFiles_submit,
        hst, screenshotFiles_previewWaitList, trace_go_back, trace_close, ihS, hc5]
      simp [screenshotFiles, List.map_cons]
    · simp only [pdfFiles_append, pdfFiles_fill, pdfFiles_submit,
        hst, pdfFiles_previewWaitList, trace_go_back, trace_close, ihP, hc5]
      simp [pdfFiles, List.map_cons]

theorem trace_download (env : Env) (url fn : String) (w : World) :
    (download_file env url fn w).trace = [.httpDownload url fn true] := rfl

theorem trace_open_site (env : Env) (w : World) :
    (open_robot_order_website env w).trace = [.goto w.config.robot_order_website_url] := rfl

theorem trace_archive (env : Env) (w : World) :
    (archive_receipts env w).trace =
      [.archiveZip (joinPath w.config.output_dir "receipts")
        (joinPath w.config.output_dir "receipts.zip")] := rfl

theorem trace_ofExcept {α : Type} (r : Except String α) (w : World) :
    (ofExcept r w).trace = [] := rfl

theorem get_orders_config {env : Env} {w w2 : World} (h : w.config = w2.config) :
    get_orders env w = get_orders env w2 := by
  simp [get_orders, h]

/-- Decomposition of a fully successful run: the files written are exactly
those of the per-order loop, one screenshot and one receipt PDF per order. -/
theorem order_robots_ok_files (env : Env) (orders : List Order)
    (hord : get_orders env initialWorld = .ok orders)
    (h : (order_robots_from_RobotSpareBin env).result = .ok ()) :
    screenshotFiles (order_robots_from_RobotSpareBin env).trace =
      orders.map (fun o => screenshotPath o ({} : Config)) ∧
    pdfFiles (order_robots_from_RobotSpareBin env).trace =
      orders.map (fun o => receiptPath o ({} : Config)) := by
  simp only [order_robots_from_RobotSpareBin] at h ⊢
  obtain ⟨u1, hD, h2⟩ := bindO_result_ok h
  cases u1
  obtain ⟨orders2, hO, h3⟩ := bindO_result_ok h2
  have hw1c : (download_file env initialWorld.config.orders_file_url
      initialWorld.config.orders_file_name initialWorld).world.config
      = initialWorld.config := rfl
  have hgo : get_orders env (download_file env initialWorld.config.orders_file_url
      initialWorld.config.orders_file_name initialWorld).world = .ok orders := by
    rw [get_orders_config hw1c]
    exact hord
  have hoo : orders2 = orders := by
    simp only [ofExcept, hgo] at hO
    injection hO with hx
    exact hx.symm
  rw [hoo] at hO h3
  obtain ⟨u3, hOpen, h4⟩ := bindO_result_ok h3
  cases u3
  obtain ⟨u4, hClose, h5⟩ := bindO_result_ok h4
  cases u4
  obtain ⟨u5, hFas, h6⟩ := bindO_result_ok h5
  cases u5
  have hwc : (close_annoying_modal env (open_robot_order_website env
      (ofExcept (get_orders env (download_file env initialWorld.config.orders_file_url
          initialWorld.config.orders_file_name initialWorld).world)
        (download_file env initialWorld.config.orders_file_url
          initialWorld.config.orders_file_name initialWorld).world).world).world).world.config
      = ({} : Config) := rfl
  obtain ⟨fS, fP⟩ := fill_and_submit_ok_files env orders _ hFas
  rw [hwc] at fS fP
  rw [bindO_ok_eq _ () hD, bindO_ok_eq _ orders hO, bindO_ok_eq _ () hOpen,
    bindO_ok_eq _ () hClose, bindO_ok_eq _ () hFas]
  constructor
  · simp only [screenshotFiles_append, trace_download, trace_open_site, trace_close,
      trace_archive, trace_ofExcept, fS]
    simp [screenshotFiles]
  · simp only [pdfFiles_append, trace_download, trace_open_site, trace_close,
      trace_archive, trace_ofExcept, fP]
    simp [pdfFiles]

/-! ## Submit behaviour depends only on the submit events' counters -/

theorem submit_attempt_agree {env : Env} {w w2 : World} (h : SubmitAgree w w2) :
    (submit_attempt env w).result = (submit_attempt env w2).result ∧
    (submit_attempt env w).trace = (submit_attempt env w2).trace ∧
    SubmitAgree (submit_attempt env w).world (submit_attempt env w2).world := by
  obtain ⟨hc, hr⟩ := h
  have hrc : receiptWaitEv ≠ clickOrderEv := Ne.symm click_ne_receipt
  have hcr : clickOrderEv ≠ receiptWaitEv := click_ne_receipt
  cases hact : env.act clickOrderEv (w.counts clickOrderEv) with
  | error s =>
    have hact2 : env.act clickOrderEv (w2.counts clickOrderEv) = .error s := by
      rw [← hc]; exact hact
    rw [submit_attempt_click_error hact, submit_attempt_click_error hact2]
    refine ⟨rfl, rfl, ?_, ?_⟩
    · simp only [bump_self, hc]
    · simp only [bump_ne hrc, hr]
  | ok v =>
    have hact2 : env.act clickOrderEv (w2.counts clickOrderEv) = .ok v := by
      rw [← hc]; exact hact
    rw [submit_attempt_click_ok hact, submit_attempt_click_ok hact2]
    refine ⟨by rw [hr], rfl, ?_, ?_⟩
    · simp only [bump_ne hcr, bump_self, hc]
    · simp only [bump_self, bump_ne hrc, hr]

theorem afterAttempts_agree (env : Env) {w w2 : World} (h : SubmitAgree w w2) :
    ∀ n, SubmitAgree (afterAttempts env w n) (afterAttempts env w2 n) := by
  intro n
  induction n with
  | zero => exact h
  | succ n ih => exact (submit_attempt_agree ih).2.2

theorem attemptResult_agree (env : Env) {w w2 : World} (h : SubmitAgree w w2) (n : Nat) :
    (submit_attempt env (afterAttempts env w n)).result
      = (submit_attempt env (afterAttempts env w2 n)).result :=
  (submit_attempt_agree (afterAttempts_agree env h n)).1

theorem addsOnly_primU {env : Env} {ev : BEvent} {w : World} :
    AddsOnly (primU env ev w) w [ev] := by
  intro e he
  simp only [List.mem_singleton] at he
  exact bump_ne he

theorem addsOnly_bindO {α β : Type} {o : Outcome α} {k : α → World → Outcome β}
    {w : World} {L1 L2 : List BEvent}
    (h1 : AddsOnly o w L1) (h2 : ∀ a w2, AddsOnly (k a w2) w2 L2) :
    AddsOnly (bindO o k) w (L1 ++ L2) := by
  intro ev hev
  rw [List.mem_append] at hev
  push_neg at hev
  cases hr : o.result with
  | error s => rw [bindO_error_eq k s hr]; exact h1 ev hev.1
  | ok a => rw [bindO_ok_eq k a hr]; exact ((h2 a o.world) ev hev.2).trans (h1 ev hev.1)

theorem addsOnly_fill (env : Env) (order : Order) (w : World) :
    AddsOnly (fill_order_form env order w) w (fillFormList order) := by
  show AddsOnly _ _ ([BEvent.selectOption "#head" order.head] ++
    ([BEvent.click ("#id-body-" ++ order.body) none] ++
     ([BEvent.fillField "input.form-control[type=\x27number\x27]" order.legs] ++
      [BEvent.fillField "#address" order.address])))
  refine addsOnly_bindO addsOnly_primU (fun a w1 => ?_)
  refine addsOnly_bindO addsOnly_primU (fun a2 w2 => ?_)
  exact addsOnly_bindO addsOnly_primU (fun a3 w3 => addsOnly_primU)

theorem clickOrder_not_mem_fill (order : Order) : clickOrderEv ∉ fillFormList order := by
  simp [fillFormList, clickOrderEv]

theorem receipt_not_mem_fill (order : Order) : receiptWaitEv ∉ fillFormList order := by
  simp [fillFormList, receiptWaitEv]

/-- Filling the form leaves the submit counters untouched. -/
theorem fill_submitAgree (env : Env) (order : Order) (w : World) :
    SubmitAgree (fill_order_form env order w).world w :=
  ⟨addsOnly_fill env order w clickOrderEv (clickOrder_not_mem_fill order),
   addsOnly_fill env order w receiptWaitEv (receipt_not_mem_fill order)⟩

/-! ## A benign environment outside the submit click and wait -/

theorem bindO_result_of_ok {α β : Type} {o : Outcome α} (k : α → World → Outcome β)
    (a : α) (h : o.result = .ok a) :
    (bindO o k).result = (k a o.world).result := by
  rw [bindO_ok_eq k a h]

theorem fill_ok (env : Env) (order : Order) (w : World) (hO : OtherActsOk env) :
    (fill_order_form env order w).result = .ok () := by
  rw [fill_order_form]
  rw [bindO_result_of_ok _ ()
    (primU_result_ok.mpr (hO _ _ (by simp [clickOrderEv]) (by simp [receiptWaitEv])))]
  rw [bindO_result_of_ok _ ()
    (primU_result_ok.mpr (hO _ _ (by simp [clickOrderEv]) (by simp [receiptWaitEv])))]
  rw [bindO_result_of_ok _ ()
    (primU_result_ok.mpr (hO _ _ (by simp [clickOrderEv]) (by simp [receiptWaitEv])))]
  exact primU_result_ok.mpr (hO _ _ (by simp [clickOrderEv]) (by simp [receiptWaitEv]))

theorem await_ok_of_benign (env : Env) (hd bd lg : String) (w : World)
    (hO : OtherActsOk env) :
    (await_robot_preview env hd bd lg 5000 w).result = .ok () := by
  have key : ∀ sel (w2 : World), (primU env (.waitSel sel 5000) w2).result = .ok () :=
    fun sel w2 =>
      primU_result_ok.mpr (hO _ _ (by simp [clickOrderEv]) (by simp [receiptWaitEv]))
  rw [await_robot_preview]
  rw [bindO_result_of_ok _ () (key _ _)]
  have step : ∀ (c : Prop) [Decidable c] (sel : String) (w2 : World),
      (if c then skipO w2 else primU env (.waitSel sel 5000) w2).result = .ok () := by
    intro c hc sel w2
    split
    · rfl
    · exact key sel w2
  rw [bindO_result_of_ok _ () (step _ _ _)]
  rw [bindO_result_of_ok _ () (step _ _ _)]
  exact step _ _ _

theorem screenshot_ok_of_benign (env : Env) (order : Order) (w : World)
    (hO : OtherActsOk env) :
    (screenshot_robot env order w).result = .ok (screenshotPath order w.config) := by
  simp only [screenshot_robot]
  rw [bindO_result_of_ok _ () (await_ok_of_benign env order.head order.body order.legs w hO)]
  rw [bindO_result_of_ok _ ()
    (primU_result_ok.mpr (hO _ _ (by simp [clickOrderEv]) (by simp [receiptWaitEv])))]
  rfl

theorem store_ok_of_benign (env : Env) (order : Order) (w : World)
    (hO : OtherActsOk env) :
    (store_receipt_as_pdf env order w).result = .ok () := by
  simp only [store_receipt_as_pdf]
  rw [bindO_result_of_ok _ _ (screenshot_ok_of_benign env order w hO)]
  obtain ⟨v, hv⟩ := hO (.innerHtml "#receipt")
    ((screenshot_robot env order w).world.counts (.innerHtml "#receipt"))
    (by simp [clickOrderEv]) (by simp [receiptWaitEv])
  have hs : (primS env (.innerHtml "#receipt") (screenshot_robot env order w).world).result
      = .ok v := hv
  rw [bindO_result_of_ok _ v hs]
  rw [bindO_result_of_ok _ ()
    (primU_result_ok.mpr (hO _ _ (by simp [clickOrderEv]) (by simp [receiptWaitEv])))]
  exact primU_result_ok.mpr (hO _ _ (by simp [clickOrderEv]) (by simp [receiptWaitEv]))

theorem go_back_ok_of_benign (env : Env) (w : World) (hO : OtherActsOk env) :
    (go_back_to_order_form env w).result = .ok () :=
  primU_result_ok.mpr (hO _ _ (by decide) (by decide))

theorem close_ok_of_benign (env : Env) (w : World) (hO : OtherActsOk env) :
    (close_annoying_modal env w).result = .ok () :=
  primU_result_ok.mpr (hO _ _ (by decide) (by decide))

/-- A single-order batch whose submit succeeds completes, in a benign
environment. -/
theorem batch_one_ok (env : Env) (order : Order) (w : World) (hO : OtherActsOk env)
    (hsub : (submit_order env (fill_order_form env order w).world).result = .ok ()) :
    (fill_and_submit_sales_form env [order] w).result = .ok () := by
  simp only [fill_and_submit_sales_form]
  rw [bindO_result_of_ok _ () (fill_ok env order w hO)]
  rw [bindO_result_of_ok _ () hsub]
  rw [bindO_result_of_ok _ () (store_ok_of_benign env order _ hO)]
  rw [bindO_result_of_ok _ () (go_back_ok_of_benign env _ hO)]
  rw [bindO_result_of_ok _ () (close_ok_of_benign env _ hO)]

/-- A single-order batch whose submit raises stops right there: the form was
filled, the submit attempts ran, and nothing else happened. -/
theorem batch_one_submit_error (env : Env) (order : Order) (w : World) (s : String)
    (hO : OtherActsOk env)
    (hsub : (submit_order env (fill_order_form env order w).world).result = .error s) :
    fill_and_submit_sales_form env [order] w =
      ⟨(fill_order_form env order w).trace ++
        (submit_order env (fill_order_form env order w).world).trace,
       (submit_order env (fill_order_form env order w).world).world, .error s⟩ := by
  simp only [fill_and_submit_sales_form]
  rw [bindO_ok_eq _ () (fill_ok env order w hO)]
  rw [bindO_error_eq _ s hsub]

/-! ## CSV parsing facts -/

theorem mkOrder_ok_lookups {r : Row} {o : Order} (h : mkOrder r = .ok o) :
    List.lookup "Order number" r = some o.order_number ∧
    List.lookup "Head" r = some o.head ∧
    List.lookup "Body" r = some o.body ∧
    List.lookup "Legs" r = some o.legs ∧
    List.lookup "Address" r = some o.address := by
  unfold mkOrder getCol at h
  cases h1 : List.lookup "Order number" r with
  | none => rw [h1] at h; exact absurd h (by simp)
  | some n =>
  rw [h1] at h
  cases h2 : List.lookup "Head" r with
  | none => rw [h2] at h; exact absurd h (by simp)
  | some hd =>
  rw [h2] at h
  cases h3 : List.lookup "Body" r with
  | none => rw [h3] at h; exact absurd h (by simp)
  | some bd =>
  rw [h3] at h
  cases h4 : List.lookup "Legs" r with
  | none => rw [h4] at h; exact absurd h (by simp)
  | some lg =>
  rw [h4] at h
  cases h5 : List.lookup "Address" r with
  | none => rw [h5] at h; exact absurd h (by simp)
  | some ad =>
  rw [h5] at h
  simp only at h
  injection h with ho
  subst ho
  exact ⟨rfl, rfl, rfl, rfl, rfl⟩

theorem mkOrder_ok_of_lookups {r : Row} {n hd bd lg ad : String}
    (h1 : List.lookup "Order number" r = some n)
    (h2 : List.lookup "Head" r = some hd)
    (h3 : List.lookup "Body" r = some bd)
    (h4 : List.lookup "Legs" r = some lg)
    (h5 : List.lookup "Address" r = some ad) :
    mkOrder r = .ok ⟨n, hd, bd, lg, ad⟩ := by
  unfold mkOrder getCol
  rw [h1, h2, h3, h4, h5]

/-- A row missing any of the five expected columns cannot be parsed. -/
theorem mkOrder_error_of_missing {r : Row} {col : String}
    (hc : col ∈ (["Order number", "Head", "Body", "Legs", "Address"] : List String))
    (hm : List.lookup col r = none) : ∃ s, mkOrder r = .error s := by
  cases hmk : mkOrder r with
  | error s => exact ⟨s, rfl⟩
  | ok o =>
    obtain ⟨h1, h2, h3, h4, h5⟩ := mkOrder_ok_lookups hmk
    simp only [List.mem_cons, List.not_mem_nil, or_false] at hc
    rcases hc with rfl | rfl | rfl | rfl | rfl
    · rw [hm] at h1; exact absurd h1 (by simp)
    · rw [hm] at h2; exact absurd h2 (by simp)
    · rw [hm] at h3; exact absurd h3 (by simp)
    · rw [hm] at h4; exact absurd h4 (by simp)
    · rw [hm] at h5; exact absurd h5 (by simp)

/-- Row order is preserved: a successful parse pairs the rows with the
produced orders one-to-one and in order. -/
theorem ordersOfRows_forall2 :
    ∀ (rows : List Row) (os : List Order), ordersOfRows rows = .ok os →
      List.Forall₂ (fun r o => mkOrder r = .ok o) rows os := by
  intro rows
  induction rows with
  | nil =>
    intro os h
    simp only [ordersOfRows] at h
    injection h with h2
    subst h2
    exact List.Forall₂.nil
  | cons r rs ih =>
    intro os h
    simp only [ordersOfRows] at h
    cases hf : mkOrder r with
    | error s => rw [hf] at h; exact absurd h (by simp)
    | ok o =>
      rw [hf] at h
      cases hrs : ordersOfRows rs with
      | error s => rw [hrs] at h; exact absurd h (by simp)
      | ok os2 =>
        rw [hrs] at h
        injection h with h2
        subst h2
        exact List.Forall₂.cons hf (ih os2 hrs)

/-- A single unparseable row makes the whole parse fail. -/
theorem ordersOfRows_error_of_mem :
    ∀ (rows : List Row) (r : Row), r ∈ rows → (∀ o, ¬ mkOrder r = .ok o) →
      ∃ s, ordersOfRows rows = .error s := by
  intro rows
  induction rows with
  | nil => intro r hr; exact absurd hr (List.not_mem_nil r)
  | cons r0 rs ih =>
    intro r hr hbad
    rcases List.mem_cons.mp hr with rfl | hr2
    · cases hf : mkOrder r with
      | error s => exact ⟨s, by simp only [ordersOfRows]; rw [hf]⟩
      | ok o => exact absurd hf (hbad o)
    · cases hf : mkOrder r0 with
      | error s => exact ⟨s, by simp only [ordersOfRows]; rw [hf]⟩
      | ok o =>
        obtain ⟨s, hs⟩ := ih r hr2 hbad
        refine ⟨s, ?_⟩
        simp only [ordersOfRows]
        rw [hf, hs]

/-! ## The claims -/

/-- C3 counterexample: on a concrete run in which every action succeeds, the
capture step does NOT extract the receipt HTML before taking the screenshot —
the screenshot (and the preview wait) come first, refuting the claimed order
"extract HTML, render PDF, wait, screenshot, embed". -/
theorem c3_counterexample :
    (store_receipt_as_pdf envAllOk ord1 initialWorld).result = .ok () ∧
    (store_receipt_as_pdf envAllOk ord1 initialWorld).trace.findIdx
        (fun ev => match ev with | .screenshot _ => true | _ => false) <
      (store_receipt_as_pdf envAllOk ord1 initialWorld).trace.findIdx
        (fun ev => match ev with | .innerHtml _ => true | _ => false) ∧
    ¬ ((store_receipt_as_pdf envAllOk ord1 initialWorld).trace.findIdx
        (fun ev => match ev with | .innerHtml _ => true | _ => false) <
      (store_receipt_as_pdf envAllOk ord1 initialWorld).trace.findIdx
        (fun ev => match ev with | .screenshot _ => true | _ => false)) := by
  refine ⟨by decide, by decide, by decide⟩

/-- C3 (amended): for every order, a successful capture performs, in order:
the preview waits for the order's non-empty parts, the screenshot at the
order's screenshot path, the receipt-HTML extraction, the PDF rendering at
the order's receipt path, and finally the watermark-style embedding of the
screenshot into that PDF. -/
theorem c3_capture_order (env : Env) (order : Order) (w : World)
    (h : (store_receipt_as_pdf env order w).result = .ok ()) :
    ∃ v, (store_receipt_as_pdf env order w).trace =
      previewWaitList order.head order.body order.legs 5000 ++
      [.screenshot (screenshotPath order w.config),
       .innerHtml "#receipt",
       .htmlToPdf v (receiptPath order w.config),
       .watermarkPdf (screenshotPath order w.config) (receiptPath order w.config)
         (receiptPath order w.config)] :=
  store_receipt_ok h

/-- C3 witness: the amended capture order holds on a concrete successful run. -/
theorem c3_capture_order_witness :
    (store_receipt_as_pdf envAllOk ord1 initialWorld).result = .ok () ∧
    ∃ v, (store_receipt_as_pdf envAllOk ord1 initialWorld).trace =
      previewWaitList ord1.head ord1.body ord1.legs 5000 ++
      [.screenshot (screenshotPath ord1 initialWorld.config),
       .innerHtml "#receipt",
       .htmlToPdf v (receiptPath ord1 initialWorld.config),
       .watermarkPdf (screenshotPath ord1 initialWorld.config)
         (receiptPath ord1 initialWorld.config) (receiptPath ord1 initialWorld.config)] :=
  ⟨by decide, c3_capture_order envAllOk ord1 initialWorld (by decide)⟩

/-- C8: the submit retry loop always terminates after at most 4 total
click-and-wait attempts — at most 4 Order-button clicks and 4 receipt waits
appear in any `submit_order` trace — and the call always either returns or
raises. -/
theorem c8_submit_terminates (env : Env) (w : World) :
    countEv clickOrderEv (submit_order env w).trace ≤ 4 ∧
    countEv receiptWaitEv (submit_order env w).trace ≤ 4 ∧
    ((submit_order env w).result = .ok () ∨
      ∃ s, (submit_order env w).result = .error s) := by
  refine ⟨submit_order_countEv_le env w clickOrderEv,
    submit_order_countEv_le env w receiptWaitEv, ?_⟩
  cases hr : (submit_order env w).result with
  | ok u => cases u; exact Or.inl rfl
  | error s => exact Or.inr ⟨s, rfl⟩

/-- C9: the `Config` object is read-only after construction: the full run
ends with the config exactly as constructed, and every workflow operation
(download, form filling, submit, capture, navigation, archiving) leaves every
config field untouched. -/
theorem c9_config_read_only :
    (∀ env, (order_robots_from_RobotSpareBin env).world.config = ({} : Config)) ∧
    (∀ env url fn w, (download_file env url fn w).world.config = w.config) ∧
    (∀ env order w, (fill_order_form env order w).world.config = w.config) ∧
    (∀ env w, (submit_order env w).world.config = w.config) ∧
    (∀ env order w, (store_receipt_as_pdf env order w).world.config = w.config) ∧
    (∀ env order w, (screenshot_robot env order w).world.config = w.config) ∧
    (∀ env hd bd lg tmo w,
      (await_robot_preview env hd bd lg tmo w).world.config = w.config) ∧
    (∀ env w, (go_back_to_order_form env w).world.config = w.config) ∧
    (∀ env w, (close_annoying_modal env w).world.config = w.config) ∧
    (∀ env w, (open_robot_order_website env w).world.config = w.config) ∧
    (∀ env orders w, (fill_and_submit_sales_form env orders w).world.config = w.config) ∧
    (∀ env w, (archive_receipts env w).world.config = w.config) := by
  refine ⟨fun env => keeps_order_robots env,
    fun env url fn w => rfl,
    fun env order w => keeps_fill_order_form env order w,
    fun env w => keeps_submit_order env w,
    fun env order w => keeps_store_receipt env order w,
    fun env order w => keeps_screenshot_robot env order w,
    fun env hd bd lg tmo w => keeps_await env hd bd lg tmo w,
    fun env w => rfl,
    fun env w => rfl,
    fun env w => rfl,
    fun env orders w => keeps_fill_and_submit env orders w,
    fun env w => rfl⟩

/-- C10: the preview wait only ever issues the container wait and one wait
per NON-empty part: a part whose identifier is the empty string is skipped
entirely (no selector wait for it appears in the trace), and any error the
wait raises is the verbatim failure of one of the waits it actually issued. -/
theorem c10_empty_part_skipped :
    (∀ env (hd bd lg : String) (tmo : Nat) (w : World) (ev : BEvent),
      ev ∈ (await_robot_preview env hd bd lg tmo w).trace →
      ev = .waitSel "#robot-preview-image" tmo ∨
      (hd ≠ "" ∧ ev = .waitSel (headSel hd) tmo) ∨
      (bd ≠ "" ∧ ev = .waitSel (bodySel bd) tmo) ∨
      (lg ≠ "" ∧ ev = .waitSel (legsSel lg) tmo)) ∧
    (∀ env (hd bd lg : String) (tmo : Nat) (w : World) (s : String),
      (await_robot_preview env hd bd lg tmo w).result = .error s →
      ∃ ev i, ev ∈ (await_robot_preview env hd bd lg tmo w).trace ∧
        env.act ev i = .error s) := by
  constructor
  · intro env hd bd lg tmo w ev hev
    exact (previewWaitList_mem hd bd lg tmo ev).mp
      (await_trace_mem env hd bd lg tmo w ev hev)
  · intro env hd bd lg tmo w s hs
    exact await_errSpec env hd bd lg tmo w s hs

/-- C10 witness: with an empty head identifier, the body wait is issued and
every issued wait is the container or a wait for one of the non-empty parts. -/
theorem c10_empty_part_skipped_witness :
    (BEvent.waitSel (bodySel "2") 5000
        ∈ (await_robot_preview envAllOk "" "2" "3" 5000 initialWorld).trace) ∧
    (BEvent.waitSel (bodySel "2") 5000 = .waitSel "#robot-preview-image" 5000 ∨
      (("" : String) ≠ "" ∧ BEvent.waitSel (bodySel "2") 5000 = .waitSel (headSel "") 5000) ∨
      (("2" : String) ≠ "" ∧ BEvent.waitSel (bodySel "2") 5000 = .waitSel (bodySel "2") 5000) ∨
      (("3" : String) ≠ "" ∧ BEvent.waitSel (bodySel "2") 5000 = .waitSel (legsSel "3") 5000)) :=
  ⟨by decide,
   c10_empty_part_skipped.1 envAllOk "" "2" "3" 5000 initialWorld _ (by decide)⟩

/-- C1: in an environment where every interaction outside the submit
click-and-wait succeeds, if the click-and-wait attempts (from a fresh submit
context) fail for attempts `0 … K-1` with `K ≤ 3` and attempt `K` succeeds,
then `submit_order` returns without raising after exactly the `K + 1`
attempts; every attempt issues one Order-button click followed by one
`#receipt` visibility wait (the wait being reached exactly when the click
went through — in particular the successful attempt is exactly one click
then one wait); and the single-order workflow reaches the capture step
exactly once, producing exactly one screenshot and one PDF for the order. -/
theorem c1_submit_retry_success (env : Env) (order : Order) (K : Nat)
    (hO : OtherActsOk env) (hK : K ≤ 3)
    (hfail : ∀ i, i < K →
      ¬ (submit_attempt env (afterAttempts env initialWorld i)).result = .ok ())
    (hok : (submit_attempt env (afterAttempts env initialWorld K)).result = .ok ()) :
    (submit_order env initialWorld).result = .ok () ∧
    (submit_order env initialWorld).trace = attemptsTrace env initialWorld (K + 1) ∧
    (∀ i, i ≤ K →
      (submit_attempt env (afterAttempts env initialWorld i)).trace = [clickOrderEv] ∨
      (submit_attempt env (afterAttempts env initialWorld i)).trace
        = [clickOrderEv, receiptWaitEv]) ∧
    (submit_attempt env (afterAttempts env initialWorld K)).trace
      = [clickOrderEv, receiptWaitEv] ∧
    (fill_and_submit_sales_form env [order] initialWorld).result = .ok () ∧
    screenshotFiles (fill_and_submit_sales_form env [order] initialWorld).trace
      = [screenshotPath order initialWorld.config] ∧
    pdfFiles (fill_and_submit_sales_form env [order] initialWorld).trace
      = [receiptPath order initialWorld.config] := by
  have hmain := submit_order_ok env initialWorld K hK hfail hok
  have hag : SubmitAgree (fill_order_form env order initialWorld).world initialWorld :=
    fill_submitAgree env order initialWorld
  have hsub : (submit_order env (fill_order_form env order initialWorld).world).result
      = .ok () := by
    have h2 := submit_order_ok env (fill_order_form env order initialWorld).world K hK
      (fun i hi => by rw [attemptResult_agree env hag i]; exact hfail i hi)
      (by rw [attemptResult_agree env hag K]; exact hok)
    rw [h2]
  have hbatch := batch_one_ok env order initialWorld hO hsub
  obtain ⟨hfs, hfp⟩ := fill_and_submit_ok_files env [order] initialWorld hbatch
  refine ⟨by rw [hmain], by rw [hmain],
    fun i _ => submit_attempt_trace_cases env _,
    submit_attempt_ok_trace hok, hbatch, ?_, ?_⟩
  · simpa using hfs
  · simpa using hfp

/-- C1 witness: the first attempt's receipt wait times out, the first retry
succeeds (`K = 1`); the submit returns and the one-order batch produces its
screenshot and PDF. -/
theorem c1_submit_retry_success_witness :
    OtherActsOk envRetry1 ∧ 1 ≤ 3 ∧
    (submit_order envRetry1 initialWorld).result = .ok () ∧
    screenshotFiles (fill_and_submit_sales_form envRetry1 [ord1] initialWorld).trace
      = [screenshotPath ord1 initialWorld.config] := by
  have hO : OtherActsOk envRetry1 := by
    intro ev i h1 h2
    refine ⟨"H", ?_⟩
    simp [envRetry1, h2]
  have h := c1_submit_retry_success envRetry1 ord1 1 hO (by decide)
    (by decide) (by decide)
  exact ⟨hO, by decide, h.1, h.2.2.2.2.2.1⟩

/-- C2: in an environment where every interaction outside the submit
click-and-wait succeeds, if the initial click-and-wait attempt raises with
message `s0` and all four attempts (initial + 3 retries) fail, then
`submit_order` raises a message quoting the retry count 3 and the original
first-attempt failure `s0`, the single-order workflow fails with that same
message, and no screenshot file and no PDF receipt file is produced for the
order. -/
theorem c2_submit_exhausted (env : Env) (order : Order) (s0 : String)
    (hO : OtherActsOk env)
    (h0 : (submit_attempt env initialWorld).result = .error s0)
    (hfail : ∀ i, i < 4 →
      ¬ (submit_attempt env (afterAttempts env initialWorld i)).result = .ok ()) :
    (submit_order env initialWorld).result =
      .error ("Failed to return to order form after 3 attempts: " ++ s0) ∧
    (fill_and_submit_sales_form env [order] initialWorld).result =
      .error ("Failed to return to order form after 3 attempts: " ++ s0) ∧
    screenshotFiles (fill_and_submit_sales_form env [order] initialWorld).trace = [] ∧
    pdfFiles (fill_and_submit_sales_form env [order] initialWorld).trace = [] := by
  have hmsg : ("Failed to return to order form after " ++ toString (3 : Nat)
      ++ " attempts: " : String) = "Failed to return to order form after 3 attempts: " := by
    decide
  have hmain := submit_order_exhaust env initialWorld s0 h0 hfail
  have hag : SubmitAgree (fill_order_form env order initialWorld).world initialWorld :=
    fill_submitAgree env order initialWorld
  have h0w : (submit_attempt env (fill_order_form env order initialWorld).world).result
      = .error s0 := (attemptResult_agree env hag 0).trans h0
  have hfailw : ∀ i, i < 4 →
      ¬ (submit_attempt env (afterAttempts env
        (fill_order_form env order initialWorld).world i)).result = .ok () :=
    fun i hi => by rw [attemptResult_agree env hag i]; exact hfail i hi
  have hsubw := submit_order_exhaust env (fill_order_form env order initialWorld).world
    s0 h0w hfailw
  have hsubr : (submit_order env (fill_order_form env order initialWorld).world).result
      = .error ("Failed to return to order form after 3 attempts: " ++ s0) := by
    rw [hsubw]
    show Except.error ("Failed to return to order form after " ++ toString (3 : Nat)
      ++ " attempts: " ++ s0) = _
    rw [hmsg]
  have hbatch := batch_one_submit_error env order initialWorld
    ("Failed to return to order form after 3 attempts: " ++ s0) hO hsubr
  refine ⟨?_, ?_, ?_, ?_⟩
  · rw [hmain]
    show Except.error ("Failed to return to order form after " ++ toString (3 : Nat)
      ++ " attempts: " ++ s0) = _
    rw [hmsg]
  · rw [hbatch]
  · rw [hbatch]
    show screenshotFiles ((fill_order_form env order initialWorld).trace ++
      (submit_order env (fill_order_form env order initialWorld).world).trace) = []
    rw [screenshotFiles_append, screenshotFiles_fill, screenshotFiles_submit]
    rfl
  · rw [hbatch]
    show pdfFiles ((fill_order_form env order initialWorld).trace ++
      (submit_order env (fill_order_form env order initialWorld).world).trace) = []
    rw [pdfFiles_append, pdfFiles_fill, pdfFiles_submit]
    rfl

/-- C2 witness: in the environment where the receipt never appears, the
submit escalates with the exhaustion message carrying the original timeout,
and the one-order batch writes neither a screenshot nor a PDF. -/
theorem c2_submit_exhausted_witness :
    (submit_attempt envNoReceipt initialWorld).result = .error "receipt timeout" ∧
    (submit_order envNoReceipt initialWorld).result =
      .error ("Failed to return to order form after 3 attempts: " ++ "receipt timeout") ∧
    screenshotFiles (fill_and_submit_sales_form envNoReceipt [ord1] initialWorld).trace
      = [] := by
  have hO : OtherActsOk envNoReceipt := by
    intro ev i h1 h2
    refine ⟨"H", ?_⟩
    simp [envNoReceipt, h2]
  have h := c2_submit_exhausted envNoReceipt ord1 "receipt timeout" hO
    (by decide) (by decide)
  exact ⟨by decide, h.1, h.2.2.1⟩

/-- C4: with the preview wait's default 5000 ms timeout, every selector wait
it issues carries timeout 5000; the waits are issued sequentially following
the fixed plan container, head, body, legs (the trace is always a prefix of
that plan, cut at the first failure); and when the preview wait fails the
screenshot step raises that same error and no screenshot is taken. -/
theorem c4_preview_timeout :
    (∀ env (hd bd lg : String) (w : World) (ev : BEvent),
      ev ∈ (await_robot_preview env hd bd lg 5000 w).trace →
      ∃ sel, ev = .waitSel sel 5000) ∧
    (∀ env (hd bd lg : String) (w : World),
      ∃ n, (await_robot_preview env hd bd lg 5000 w).trace =
        (previewWaitList hd bd lg 5000).take n) ∧
    (∀ env (order : Order) (w : World) (s : String),
      (await_robot_preview env order.head order.body order.legs 5000 w).result
        = .error s →
      (screenshot_robot env order w).result = .error s ∧
      screenshotFiles (screenshot_robot env order w).trace = []) := by
  refine ⟨?_, ?_, ?_⟩
  · intro env hd bd lg w ev hev
    rcases (previewWaitList_mem hd bd lg 5000 ev).mp
        (await_trace_mem env hd bd lg 5000 w ev hev) with h | ⟨_, h⟩ | ⟨_, h⟩ | ⟨_, h⟩
    · exact ⟨_, h⟩
    · exact ⟨_, h⟩
    · exact ⟨_, h⟩
    · exact ⟨_, h⟩
  · intro env hd bd lg w
    exact (await_takeSpec env hd bd lg 5000 w).1
  · intro env order w s hs
    rw [screenshot_robot_await_error hs]
    refine ⟨rfl, ?_⟩
    show screenshotFiles
      (await_robot_preview env order.head order.body order.legs 5000 w).trace = []
    refine List.filterMap_eq_nil_iff.mpr (fun ev hev => ?_)
    rcases (previewWaitList_mem _ _ _ 5000 ev).mp
        (await_trace_mem env _ _ _ 5000 w ev hev) with h | ⟨_, h⟩ | ⟨_, h⟩ | ⟨_, h⟩ <;>
      subst h <;> rfl

/-- C4 witness: the spec's example — head "3" whose preview image never
appears — makes the wait raise and the screenshot step fail without taking a
screenshot. -/
theorem c4_preview_timeout_witness :
    (await_robot_preview envNoHead ordHead3.head ordHead3.body ordHead3.legs 5000
      initialWorld).result = .error "preview timeout" ∧
    (screenshot_robot envNoHead ordHead3 initialWorld).result = .error "preview timeout" ∧
    screenshotFiles (screenshot_robot envNoHead ordHead3 initialWorld).trace = [] := by
  have h := c4_preview_timeout.2.2 envNoHead ordHead3 initialWorld "preview timeout"
    (by decide)
  exact ⟨by decide, h.1, h.2⟩

/-- C5: whenever the full run completes without a fatal error on a CSV that
parses to `orders`, the run writes exactly one screenshot and one PDF per
order, at `output/screenshots/robot-<order_number>.png` and
`output/receipts/receipt-<order_number>.pdf`, in row order. -/
theorem c5_outputs (env : Env) (orders : List Order)
    (hord : get_orders env initialWorld = .ok orders)
    (h : (order_robots_from_RobotSpareBin env).result = .ok ()) :
    screenshotFiles (order_robots_from_RobotSpareBin env).trace =
      orders.map (fun o => "output/screenshots/robot-" ++ o.order_number ++ ".png") ∧
    pdfFiles (order_robots_from_RobotSpareBin env).trace =
      orders.map (fun o => "output/receipts/receipt-" ++ o.order_number ++ ".pdf") ∧
    (screenshotFiles (order_robots_from_RobotSpareBin env).trace).length
      = orders.length ∧
    (pdfFiles (order_robots_from_RobotSpareBin env).trace).length = orders.length := by
  obtain ⟨h1, h2⟩ := order_robots_ok_files env orders hord h
  refine ⟨?_, ?_, ?_, ?_⟩
  · rw [h1]
    simp only [screenshotPath_default]
  · rw [h2]
    simp only [receiptPath_default]
  · rw [h1]
    simp [List.length_map]
  · rw [h2]
    simp [List.length_map]

/-- C5 witness: a one-row CSV produces exactly the one screenshot and the
one PDF, named by the order number. -/
theorem c5_outputs_witness :
    get_orders envCsv initialWorld = .ok [ord1] ∧
    (order_robots_from_RobotSpareBin envCsv).result = .ok () ∧
    screenshotFiles (order_robots_from_RobotSpareBin envCsv).trace =
      [ord1].map (fun o => "output/screenshots/robot-" ++ o.order_number ++ ".png") ∧
    pdfFiles (order_robots_from_RobotSpareBin envCsv).trace =
      [ord1].map (fun o => "output/receipts/receipt-" ++ o.order_number ++ ".pdf") := by
  have h := c5_outputs envCsv [ord1] (by decide) (by decide)
  exact ⟨by decide, by decide, h.1, h.2.1⟩

/-- C6: ingestion downloads the CSV with overwrite enabled and a download
failure propagates (aborting the whole run); parsing pairs rows with orders
one-to-one in row order; an unreadable file or a row missing one of the five
expected columns makes `get_orders` fail with no partial result. -/
theorem c6_ingestion :
    (∀ env (url fn : String) (w : World),
      (download_file env url fn w).trace = [.httpDownload url fn true]) ∧
    (∀ env (url fn : String) (w : World) (s : String),
      env.act (.httpDownload url fn true) (w.counts (.httpDownload url fn true))
        = .error s →
      (download_file env url fn w).result = .error s) ∧
    (∀ env (s : String),
      (download_file env initialWorld.config.orders_file_url
        initialWorld.config.orders_file_name initialWorld).result = .error s →
      (order_robots_from_RobotSpareBin env).result = .error s) ∧
    (∀ env (w : World) (s : String),
      env.csv w.config.orders_file_name = .error s → get_orders env w = .error s) ∧
    (∀ env (w : World) (rows : List Row) (orders : List Order),
      env.csv w.config.orders_file_name = .ok rows →
      get_orders env w = .ok orders →
      List.Forall₂ (fun r o => mkOrder r = .ok o) rows orders) ∧
    (∀ env (w : World) (rows : List Row) (r : Row) (col : String),
      env.csv w.config.orders_file_name = .ok rows → r ∈ rows →
      col ∈ (["Order number", "Head", "Body", "Legs", "Address"] : List String) →
      List.lookup col r = none →
      ∃ s, get_orders env w = .error s) := by
  refine ⟨fun env url fn w => rfl, ?_, ?_, ?_, ?_, ?_⟩
  · intro env url fn w s hs
    exact primU_result_error.mpr hs
  · intro env s hs
    simp only [order_robots_from_RobotSpareBin]
    rw [bindO_error_eq _ s hs]
  · intro env w s hs
    simp only [get_orders]
    rw [hs]
  · intro env w rows orders hcsv hok
    simp only [get_orders] at hok
    rw [hcsv] at hok
    exact ordersOfRows_forall2 rows orders hok
  · intro env w rows r col hcsv hr hcol hmiss
    obtain ⟨s, hs⟩ := ordersOfRows_error_of_mem rows r hr (fun o hok => by
      obtain ⟨s2, hs2⟩ := mkOrder_error_of_missing hcol hmiss
      rw [hok] at hs2
      exact absurd hs2 (by simp))
    refine ⟨s, ?_⟩
    simp only [get_orders]
    rw [hcsv]
    exact hs

/-- C6 witness: a failing download propagates its message and aborts the
run; a good row parses in order; a row missing "Head" fails the parse. -/
theorem c6_ingestion_witness :
    (download_file envDownFail "u" "f" initialWorld).result
      = .error "connection refused" ∧
    (order_robots_from_RobotSpareBin envDownFail).result
      = .error "connection refused" ∧
    List.Forall₂ (fun r o => mkOrder r = .ok o) [row1] [ord1] ∧
    (∃ s, get_orders envCsvBad initialWorld = .error s) := by
  refine ⟨c6_ingestion.2.1 envDownFail "u" "f" initialWorld "connection refused"
      (by decide),
    c6_ingestion.2.2.1 envDownFail "connection refused" (by decide),
    c6_ingestion.2.2.2.2.1 envCsv initialWorld [row1] [ord1] (by decide) (by decide),
    c6_ingestion.2.2.2.2.2 envCsvBad initialWorld [row1, rowBad] rowBad "Head"
      (by decide) (by decide) (by decide) (by decide)⟩

/-- Propagation of a failing head order to the longer batch: the tail orders
never run and the trace is unchanged. -/
theorem bindO_congr_tail {o : Outcome Unit} {k1 k2 : Unit → World → Outcome Unit}
    {s : String}
    (hcont : ∀ w2, (k1 () w2).result = .error s →
      (k2 () w2).result = .error s ∧ (k2 () w2).trace = (k1 () w2).trace)
    (h : (bindO o k1).result = .error s) :
    (bindO o k2).result = .error s ∧ (bindO o k2).trace = (bindO o k1).trace := by
  cases hr : o.result with
  | error s2 =>
    rw [bindO_error_eq k1 s2 hr] at h
    simp only at h
    injection h with h2
    subst h2
    rw [bindO_error_eq k1 s2 hr, bindO_error_eq k2 s2 hr]
    exact ⟨rfl, rfl⟩
  | ok a =>
    cases a
    rw [bindO_ok_eq k1 () hr] at h
    simp only at h
    obtain ⟨h1, h2⟩ := hcont o.world h
    rw [bindO_ok_eq k1 () hr, bindO_ok_eq k2 () hr]
    refine ⟨h1, ?_⟩
    simp only
    rw [h2]

theorem batch_head_error (env : Env) (order : Order) (rest : List Order) (w : World)
    (s : String)
    (h : (fill_and_submit_sales_form env [order] w).result = .error s) :
    (fill_and_submit_sales_form env (order :: rest) w).result = .error s ∧
    (fill_and_submit_sales_form env (order :: rest) w).trace
      = (fill_and_submit_sales_form env [order] w).trace := by
  simp only [fill_and_submit_sales_form] at h ⊢
  refine bindO_congr_tail (fun w1 h1 => ?_) h
  refine bindO_congr_tail (fun w2 h2 => ?_) h1
  refine bindO_congr_tail (fun w3 h3 => ?_) h2
  refine bindO_congr_tail (fun w4 h4 => ?_) h3
  refine bindO_congr_tail (fun w5 h5 => ?_) h4
  exact absurd h5 (by simp [fill_and_submit_sales_form])

/-- C7: the non-submit page interactions are never retried and their first
failure propagates verbatim: modal dismissal and the return navigation each
issue exactly one click whose failure is the function's failure; the preview
wait issues each planned wait at most once (its trace is a prefix of the
fixed plan) and only fails with the message of a wait it issued; and a
failing order aborts the remaining batch with no further events. -/
theorem c7_no_retry :
    (∀ env (w : World),
      (close_annoying_modal env w).trace = [.click "button:text(\x27OK\x27)" none] ∧
      ∀ s, ((close_annoying_modal env w).result = .error s ↔
        env.act (.click "button:text(\x27OK\x27)" none)
          (w.counts (.click "button:text(\x27OK\x27)" none)) = .error s)) ∧
    (∀ env (w : World),
      (go_back_to_order_form env w).trace
        = [.click "button:text(\x27Order another robot\x27)" (some 1000)] ∧
      ∀ s, ((go_back_to_order_form env w).result = .error s ↔
        env.act (.click "button:text(\x27Order another robot\x27)" (some 1000))
          (w.counts (.click "button:text(\x27Order another robot\x27)" (some 1000)))
          = .error s)) ∧
    (∀ env (hd bd lg : String) (tmo : Nat) (w : World),
      (∃ n, (await_robot_preview env hd bd lg tmo w).trace
        = (previewWaitList hd bd lg tmo).take n) ∧
      ∀ s, (await_robot_preview env hd bd lg tmo w).result = .error s →
        ∃ ev i, ev ∈ (await_robot_preview env hd bd lg tmo w).trace ∧
          env.act ev i = .error s) ∧
    (∀ env (order : Order) (rest : List Order) (w : World) (s : String),
      (fill_and_submit_sales_form env [order] w).result = .error s →
      (fill_and_submit_sales_form env (order :: rest) w).result = .error s ∧
      (fill_and_submit_sales_form env (order :: rest) w).trace
        = (fill_and_submit_sales_form env [order] w).trace) := by
  refine ⟨?_, ?_, ?_, ?_⟩
  · exact fun env w => ⟨rfl, fun s => primU_result_error⟩
  · exact fun env w => ⟨rfl, fun s => primU_result_error⟩
  · intro env hd bd lg tmo w
    exact ⟨(await_takeSpec env hd bd lg tmo w).1,
      fun s hs => await_errSpec env hd bd lg tmo w s hs⟩
  · intro env order rest w s h
    exact batch_head_error env order rest w s h

/-- C7 witness: with the preview for head "3" never appearing, a batch of
two orders fails on the first one with the wait's own message, and the trace
of the two-order batch equals that of the one-order batch. -/
theorem c7_no_retry_witness :
    (fill_and_submit_sales_form envNoHead [ordHead3] initialWorld).result
      = .error "preview timeout" ∧
    (fill_and_submit_sales_form envNoHead [ordHead3, ord1] initialWorld).result
      = .error "preview timeout" ∧
    (fill_and_submit_sales_form envNoHead [ordHead3, ord1] initialWorld).trace
      = (fill_and_submit_sales_form envNoHead [ordHead3] initialWorld).trace := by
  have h := c7_no_retry.2.2.2 envNoHead ordHead3 [ord1] initialWorld "preview timeout"
    (by decide)
  exact ⟨by decide, h.1, h.2⟩

end RobotOrders
